import Mathlib

/-!
# minui/resources.c : PNG resource decoder

A shallow embedding of `res_create_surface` and `res_free_surface` from
`minui/resources.c`.

* `size_t` arithmetic is arithmetic on `Nat` reduced modulo `2 ^ bits`, where
  `bits` is 32 or 64 (`Abi`).
* `int` arithmetic is arithmetic on `Int` reduced to 32-bit two's complement.
* The pixel memory behind the surface header is a map from byte offsets
  (relative to `pData`) to bytes.  An access is never faulted; instead every
  `pRow[i]` read and write of the normalisation loops is recorded, in order, in
  the event trace, together with the calls that acquire and release resources.
* libpng, the C library and the file system are outside the repository: what
  they answer is given by an `Env`.
-/

namespace Minui

/-! ## Machine integers -/

/-- An `unsigned char`. -/
abbrev Byte := Nat

/-- The data model of the target: `size_t` has 32 or 64 bits; `int` has 32. -/
inductive Abi where
  | ilp32
  | lp64
  deriving DecidableEq

/-- Number of bits of `size_t`. -/
def Abi.bits : Abi → Nat
  | .ilp32 => 32
  | .lp64 => 64

/-- Reduction of a natural number to a `size_t` value. -/
def Abi.size_t (abi : Abi) (n : Nat) : Nat := n % 2 ^ abi.bits

/-- The `size_t` value of `n - 1` (wraps to `SIZE_MAX` at `n = 0`). -/
def Abi.pred (abi : Abi) (n : Nat) : Nat := (n % 2 ^ abi.bits + (2 ^ abi.bits - 1)) % 2 ^ abi.bits

/-- Reduction of an integer to a 32-bit two's complement `int`. -/
def wrapInt (z : Int) : Int := (z + 2147483648) % 4294967296 - 2147483648

/-- Conversion of a `size_t` value to `int` (keeps the low 32 bits). -/
def toInt (n : Nat) : Int := wrapInt (n : Int)

/-! ## libpng and pixelflinger constants -/

/-- From `png.h`: `PNG_COLOR_MASK_COLOR`. -/
def PNG_COLOR_TYPE_RGB : Int := 2

/-- From `png.h`: `PNG_COLOR_MASK_COLOR | PNG_COLOR_MASK_PALETTE`. -/
def PNG_COLOR_TYPE_PALETTE : Int := 3

/-- From `png.h`: `PNG_COLOR_MASK_COLOR | PNG_COLOR_MASK_ALPHA`. -/
def PNG_COLOR_TYPE_RGBA : Int := 6

/-- The pixel formats of `pixelflinger/format.h` that the decoder assigns. -/
inductive GGLPixelFormat where
  | GGL_PIXEL_FORMAT_RGBA_8888
  | GGL_PIXEL_FORMAT_RGBX_8888
  | GGL_PIXEL_FORMAT_BGRA_8888
  deriving DecidableEq

/-- The eight bytes every PNG file starts with. -/
def png_signature : List Byte := [137, 80, 78, 71, 13, 10, 26, 10]

/-- Modelled from the spec: libpng's `png_sig_cmp(header, 0, 8)` is outside the
repository; the spec has the leading 8-byte block compared with the canonical
magic prefix.  Zero when the block is the signature, non-zero otherwise. -/
def png_sig_cmp (header : List Byte) : Int :=
  if header = png_signature then 0 else 1

/-! ## Data model -/

/-- The fields of `info_ptr` that `res_create_surface` reads after
`png_read_info`. `width` and `height` are `png_uint_32` values. -/
structure PngInfo where
  width : Nat
  height : Nat
  color_type : Int
  bit_depth : Int
  channels : Int

/-- The surface header.  `data` is the memory starting at `pData`, by byte
offset; `block` is the size that was passed to `malloc` for header and pixels
together (a ghost field, not part of the C struct). -/
structure GGLSurface where
  version : Nat
  width : Nat
  height : Nat
  stride : Nat
  data : Int → Byte
  format : GGLPixelFormat
  block : Nat

/-- What the calls made by the decoder answer. -/
structure Env where
  /-- Width of `size_t`. -/
  abi : Abi
  /-- Whether the build defines `PIXELS_BGRA`. -/
  PIXELS_BGRA : Bool
  /-- The value of `sizeof(GGLSurface)`. -/
  sizeof_GGLSurface : Nat
  /-- The contents of the file `name`; `none` when `fopen` returns `NULL`. -/
  fopen : Option (List Byte)
  /-- Whether `png_create_read_struct` returns a non-null pointer. -/
  png_create_read_struct : Bool
  /-- Whether `png_create_info_struct` returns a non-null pointer. -/
  png_create_info_struct : Bool
  /-- The header `png_read_info` delivers; `none` when libpng raises an error
  (control comes back through `setjmp`). -/
  png_read_info : Option PngInfo
  /-- Whether `malloc` of the given size returns a non-null pointer. -/
  malloc : Nat → Bool
  /-- The bytes found in the fresh block, by offset from `pData`. -/
  heap : Int → Byte
  /-- The bytes `png_read_row` stores at `pRow` for row `y`; `none` when libpng
  raises an error in that row. -/
  png_read_row : Nat → Option (List Byte)

/-- Calls and memory accesses, in the order they happen. -/
inductive Event where
  /-- `fopen` returned a non-null handle. -/
  | fopen
  | fclose
  /-- `png_create_read_struct` returned a non-null pointer. -/
  | png_create_read_struct
  /-- `png_create_info_struct` returned a non-null pointer. -/
  | png_create_info_struct
  /-- `png_destroy_read_struct(&png_ptr, &info_ptr, NULL)`; the flags say
  whether `png_ptr` and `info_ptr` were non-null at the call. -/
  | png_destroy_read_struct (png_ptr info_ptr : Bool)
  /-- `malloc(size)` returned a non-null pointer. -/
  | malloc (size : Nat)
  | free
  | png_set_palette_to_rgb
  /-- `png_read_row(png_ptr, pRow, NULL)` for row `y`. -/
  | png_read_row (y : Nat)
  /-- A read of the byte at offset `i` from `pData`. -/
  | load (i : Int)
  /-- A write of the byte at offset `i` from `pData`. -/
  | store (i : Int)
  /-- The assignment `*pSurface = surface`. -/
  | assign_pSurface
  deriving DecidableEq

/-- Pixel memory and the trace so far. -/
structure St where
  mem : Int → Byte
  trace : List Event

/-- What the caller sees after `res_create_surface`: the returned code, the
value of `*pSurface`, and the trace of the call. -/
structure Ret where
  result : Int
  pSurface : Option GGLSurface
  trace : List Event

/-! ## Memory accesses -/

/-- The statement `v = p[i]`. -/
def St.load (s : St) (i : Int) : Byte × St :=
  (s.mem i, { s with trace := s.trace ++ [Event.load i] })

/-- The statement `p[i] = v`. -/
def St.store (s : St) (i : Int) (v : Byte) : St :=
  { mem := fun j => if j = i then v else s.mem j, trace := s.trace ++ [Event.store i] }

/-- The effect of `png_read_row(png_ptr, pRow, NULL)` on memory: the decoded
bytes of the row are placed from `pRow` on. -/
def storeRow (mem : Int → Byte) (pRow : Int) (row : List Byte) : Int → Byte :=
  fun i => if pRow ≤ i ∧ i < pRow + (row.length : Int) then row.getD (i - pRow).toNat 0 else mem i

/-! ## The normalisation loops -/

/-- Body of the inner loop of the `channels == 3` branch (lines 133-149). -/
def expand_body (bgra : Bool) (pRow : Int) (x : Int) (s0 : St) : St :=
  let sx := wrapInt (x * 3)
  let dx := wrapInt (x * 4)
  let (r, s1) := s0.load (pRow + sx)
  let (g, s2) := s1.load (pRow + wrapInt (sx + 1))
  let (b, s3) := s2.load (pRow + wrapInt (sx + 2))
  let a : Byte := 0xff
  if bgra then
    (((s3.store (pRow + wrapInt (dx + 2)) r).store (pRow + wrapInt (dx + 1)) g).store
      (pRow + dx) b).store (pRow + wrapInt (dx + 3)) a
  else
    (((s3.store (pRow + dx) r).store (pRow + wrapInt (dx + 1)) g).store
      (pRow + wrapInt (dx + 2)) b).store (pRow + wrapInt (dx + 3)) a

/-- Body of the inner loop under `PIXELS_BGRA` for `channels == 4`
(lines 159-162). -/
def swap_body (pRow : Int) (x : Int) (s0 : St) : St :=
  let dx := wrapInt (x * 4)
  let (r, s1) := s0.load (pRow + dx)
  let (t, s2) := s1.load (pRow + wrapInt (dx + 2))
  (s2.store (pRow + dx) t).store (pRow + wrapInt (dx + 2)) r

/-- The loop `for (x = n - 1; x >= 0; x--) body`, for `n - 1` a non-negative
`int` or `n = 0`: `n` values of `x` remain to be visited. -/
def for_x (body : Int → St → St) : Nat → St → St
  | 0, s => s
  | n + 1, s => for_x body n (body (n : Int) s)

/-- The loop `for (x = width - 1; x >= 0; x--) body`: `width - 1` is computed
in `size_t` and converted to `int`. -/
def for_x_from_width (abi : Abi) (width : Nat) (body : Int → St → St) (s : St) : St :=
  for_x body (toInt (abi.pred width) + 1).toNat s

/-- What is done to a row after `png_read_row` has stored it. -/
def normalise_row (abi : Abi) (bgra : Bool) (channels : Int) (width : Nat) (pRow : Int)
    (s : St) : St :=
  if channels = 3 then
    for_x_from_width abi width (expand_body bgra pRow) s
  else if bgra && decide (channels = 4) then
    for_x_from_width abi width (swap_body pRow) s
  else
    s

/-- The loops `for (y = 0; y < height; ++y)` of lines 128 and 153, started at
row `y` with `n` rows to go.  The flag is `false` when libpng raised an error
in a row; the state is then the one at that point. -/
def read_rows (env : Env) (channels : Int) (width stride : Nat) : Nat → Nat → St → Bool × St
  | 0, _, s => (true, s)
  | n + 1, y, s =>
    let pRow : Int := (env.abi.size_t (y * stride) : Nat)
    let s1 : St := { s with trace := s.trace ++ [Event.png_read_row y] }
    match env.png_read_row y with
    | none => (false, s1)
    | some row =>
      read_rows env channels width stride n (y + 1)
        (normalise_row env.abi env.PIXELS_BGRA channels width pRow
          { s1 with mem := storeRow s1.mem pRow row })

/-! ## `res_create_surface` -/

/-- The test of lines 93-96. -/
def supported (info : PngInfo) : Bool :=
  decide (info.bit_depth = 8) &&
    ((decide (info.channels = 3) && decide (info.color_type = PNG_COLOR_TYPE_RGB)) ||
     (decide (info.channels = 4) && decide (info.color_type = PNG_COLOR_TYPE_RGBA)) ||
     (decide (info.channels = 1) && decide (info.color_type = PNG_COLOR_TYPE_PALETTE)))

/-- The value of `stride` (line 87). -/
def stride_of (abi : Abi) (width : Nat) : Nat := abi.size_t (4 * width)

/-- The value of `pixelSize` (line 88). -/
def pixelSize_of (abi : Abi) (width height : Nat) : Nat :=
  abi.size_t (stride_of abi width * height)

/-- The argument of `malloc` (line 101). -/
def malloc_arg (abi : Abi) (sizeof_GGLSurface width height : Nat) : Nat :=
  abi.size_t (sizeof_GGLSurface + pixelSize_of abi width height)

/-- The value of `surface->format` (lines 112-119). -/
def format_of (bgra : Bool) (channels : Int) : GGLPixelFormat :=
  if channels = 3 then GGLPixelFormat.GGL_PIXEL_FORMAT_RGBX_8888
  else if bgra then GGLPixelFormat.GGL_PIXEL_FORMAT_BGRA_8888
  else GGLPixelFormat.GGL_PIXEL_FORMAT_RGBA_8888

/-- The code from the label `exit` on (lines 171-180), entered with the given
values of the locals. -/
def exit_label (trace : List Event) (fp png_ptr info_ptr surface : Bool) (result : Int)
    (pSurface : Option GGLSurface) : Ret :=
  let t1 := trace ++ [Event.png_destroy_read_struct png_ptr info_ptr]
  let t2 := if fp then t1 ++ [Event.fclose] else t1
  let t3 := if decide (result < 0) && surface then t2 ++ [Event.free] else t2
  { result := result, pSurface := pSurface, trace := t3 }

/-- The state in which the row loops start (lines 101-123): memory is the
fresh block, and the trace has gained the `malloc` and, for a palette image,
the call of `png_set_palette_to_rgb`. -/
def rows_start (env : Env) (info : PngInfo) (trace : List Event) : St :=
  let t3 := trace ++
    [Event.malloc (malloc_arg env.abi env.sizeof_GGLSurface info.width info.height)]
  { mem := env.heap,
    trace := if info.color_type = PNG_COLOR_TYPE_PALETTE
      then t3 ++ [Event.png_set_palette_to_rgb] else t3 }

/-- The header written in lines 106-119, for pixel memory `mem`. -/
def surface_of (env : Env) (info : PngInfo) (mem : Int → Byte) : GGLSurface :=
  { version := env.sizeof_GGLSurface
    width := info.width
    height := info.height
    stride := info.width
    data := mem
    format := format_of env.PIXELS_BGRA info.channels
    block := malloc_arg env.abi env.sizeof_GGLSurface info.width info.height }

/-- Lines 85-181 of `res_create_surface`: the code that runs once
`png_read_info` has delivered `info`; `trace` is the trace up to that point and
`pSurface` the value of `*pSurface` before the call. -/
def decode_info (env : Env) (info : PngInfo) (pSurface : Option GGLSurface)
    (trace : List Event) : Ret :=
  if !supported info then
    { result := -7, pSurface := pSurface, trace := trace }
  else if !env.malloc (malloc_arg env.abi env.sizeof_GGLSurface info.width info.height) then
    exit_label trace true true true false (-8) pSurface
  else
    match read_rows env info.channels info.width (stride_of env.abi info.width) info.height 0
        (rows_start env info trace) with
    | (false, s) => exit_label s.trace true true true true (-6) pSurface
    | (true, s) =>
      exit_label (s.trace ++ [Event.assign_pSurface]) true true true true 0
        (some (surface_of env info s.mem))

/-- The function `res_create_surface(name, pSurface)`; `pSurface` is the value
of `*pSurface` before the call. -/
def res_create_surface (env : Env) (pSurface : Option GGLSurface) : Ret :=
  match env.fopen with
  | none => exit_label [] false false false false (-1) pSurface
  | some file =>
    let t0 := [Event.fopen]
    let bytesRead := min 8 file.length
    let header := file.take 8
    if bytesRead ≠ 8 then exit_label t0 true false false false (-2) pSurface
    else if png_sig_cmp header ≠ 0 then exit_label t0 true false false false (-3) pSurface
    else if !env.png_create_read_struct then exit_label t0 true false false false (-4) pSurface
    else
      let t1 := t0 ++ [Event.png_create_read_struct]
      if !env.png_create_info_struct then exit_label t1 true true false false (-5) pSurface
      else
        let t2 := t1 ++ [Event.png_create_info_struct]
        match env.png_read_info with
        | none => exit_label t2 true true true false (-6) pSurface
        | some info => decode_info env info pSurface t2

/-- The function `res_free_surface(pSurface)`.  The first argument says whether
the pointer `pSurface` itself is non-null, the second is the value of
`*pSurface`.  Returns the value of `*pSurface` after the call and the trace. -/
def res_free_surface (nonnull : Bool) (pSurface : Option GGLSurface) :
    Option GGLSurface × List Event :=
  if nonnull then
    match pSurface with
    | some _ => (none, [])
    | none => (pSurface, [])
  else (pSurface, [])


/-! ## Specifications used in the statements -/

/-- The expansion of a row done out of place: the bytes of `src`, a copy of
memory taken before the row is touched, are read at `3x .. 3x+2` and placed at
`4x .. 4x+3` as (R,G,B,0xFF) in the active channel order; bytes outside the
row are those of `src`. -/
def expand_copy (bgra : Bool) (src : Int → Byte) (pRow : Int) (w : Nat) : Int → Byte :=
  fun i =>
    if pRow ≤ i ∧ i < pRow + 4 * (w : Int) then
      let x := (i - pRow) / 4
      let k := (i - pRow) % 4
      if k = 3 then 0xff
      else if bgra then src (pRow + 3 * x + (2 - k))
      else src (pRow + 3 * x + k)
    else src i

/-- The accesses of one iteration of the `channels == 3` inner loop. -/
def expand_events (bgra : Bool) (pRow : Int) (x : Nat) : List Event :=
  [Event.load (pRow + 3 * x), Event.load (pRow + 3 * x + 1), Event.load (pRow + 3 * x + 2)] ++
    if bgra then
      [Event.store (pRow + 4 * x + 2), Event.store (pRow + 4 * x + 1),
       Event.store (pRow + 4 * x), Event.store (pRow + 4 * x + 3)]
    else
      [Event.store (pRow + 4 * x), Event.store (pRow + 4 * x + 1),
       Event.store (pRow + 4 * x + 2), Event.store (pRow + 4 * x + 3)]

/-- The events of a loop that visits `x = n - 1, ..., 0`, given those of each
iteration. -/
def loop_events (ev : Nat → List Event) : Nat → List Event
  | 0 => []
  | n + 1 => ev n ++ loop_events ev n

/-- No byte is read after it has been written: an earlier `store i` is never
followed by a `load i`. -/
def ReadsBeforeWrites (t : List Event) : Prop :=
  List.Pairwise (fun e1 e2 => ∀ i : Int, e1 = Event.store i → e2 ≠ Event.load i) t

/-- The exchange of bytes 0 and 2 of every pixel of a row, done out of place
on a copy `src` of memory. -/
def swap_copy (src : Int → Byte) (pRow : Int) (w : Nat) : Int → Byte :=
  fun i =>
    if pRow ≤ i ∧ i < pRow + 4 * (w : Int) then
      if (i - pRow) % 4 = 0 then src (i + 2)
      else if (i - pRow) % 4 = 2 then src (i - 2)
      else src i
    else src i

/-- The run gets past `png_read_info`: the file opens and starts with the PNG
signature, both libpng structs are created and the header `info` is
delivered. -/
def ParsesHeader (env : Env) (info : PngInfo) : Prop :=
  (∃ file : List Byte, env.fopen = some file ∧ file.take 8 = png_signature) ∧
  env.png_create_read_struct = true ∧ env.png_create_info_struct = true ∧
  env.png_read_info = some info

/-- The trace at the point where `png_read_info` has returned. -/
def header_trace : List Event :=
  [Event.fopen, Event.png_create_read_struct, Event.png_create_info_struct]


/-- What normalisation does to a row, out of place on a copy `src` of memory:
expansion for `channels == 3`, the exchange of bytes 0 and 2 for
`channels == 4` under `PIXELS_BGRA`, nothing otherwise. -/
def norm_copy (bgra : Bool) (channels : Int) (src : Int → Byte) (pRow : Int) (w : Nat) :
    Int → Byte :=
  if channels = 3 then expand_copy bgra src pRow w
  else if bgra && decide (channels = 4) then swap_copy src pRow w
  else src

/-- The events of the row loops: a call of `png_read_row` or an access to a
byte of pixel memory. -/
def RowEvent : Event → Prop
  | Event.png_read_row _ => True
  | Event.load _ => True
  | Event.store _ => True
  | _ => False

/-- The first `n` bytes of the pixel data of the surface handed to the caller
(empty when there is none). -/
def Ret.pixels (r : Ret) (n : Nat) : List Byte :=
  match r.pSurface with
  | none => []
  | some surf => (List.range n).map (fun i => surf.data (i : Int))

/-- The pixel format of the surface handed to the caller. -/
def Ret.format (r : Ret) : Option GGLPixelFormat :=
  r.pSurface.map (fun surf => surf.format)

/-- The number of bytes of the block behind the header of the surface handed
to the caller: what was asked of `malloc`, less `sizeof(GGLSurface)`. -/
def Ret.reserved (r : Ret) (sizeof_GGLSurface : Nat) : Option Nat :=
  r.pSurface.map (fun surf => surf.block - sizeof_GGLSurface)

/-- A trace releases what it acquired: the file is closed as often as it was
opened, and `png_destroy_read_struct` has been handed a non-null `png_ptr`
(`info_ptr`) as often as a read struct (info struct) was created. -/
def Released (t : List Event) : Prop :=
  t.count Event.fclose = t.count Event.fopen ∧
  t.count (Event.png_destroy_read_struct true true) +
      t.count (Event.png_destroy_read_struct true false)
    = t.count Event.png_create_read_struct ∧
  t.count (Event.png_destroy_read_struct true true) +
      t.count (Event.png_destroy_read_struct false true)
    = t.count Event.png_create_info_struct

instance (t : List Event) : Decidable (Released t) := by
  unfold Released
  infer_instance

/-- The accesses of one iteration of the exchange loop of lines 158-163. -/
def swap_events (pRow : Int) (x : Nat) : List Event :=
  [Event.load (pRow + 4 * x), Event.load (pRow + 4 * x + 2),
   Event.store (pRow + 4 * x), Event.store (pRow + 4 * x + 2)]

/-- A read or a write of a byte of pixel memory. -/
def IsAccess : Event → Prop
  | Event.load _ => True
  | Event.store _ => True
  | _ => False

/-- An event that, if it is an access, touches an offset in `[lo, hi)`. -/
def AccessIn (lo hi : Int) : Event → Prop
  | Event.load i => lo ≤ i ∧ i < hi
  | Event.store i => lo ≤ i ∧ i < hi
  | _ => True

/-! ## Concrete inputs -/

/-- A two-pixel row: the first six bytes hold two RGB triples. -/
def row2 : St := { mem := storeRow (fun _ => 0) 0 [255, 0, 0, 1, 2, 3], trace := [] }


/-- A file that starts with the PNG signature. -/
def png_file : List Byte := png_signature ++ [0, 0, 0, 13, 73, 72, 68, 82]

/-- A 32-bit build without `PIXELS_BGRA` in which every call succeeds; the
header and the rows are filled in by the environments below. -/
def env_base : Env :=
  { abi := Abi.ilp32
    PIXELS_BGRA := false
    sizeof_GGLSurface := 32
    fopen := some png_file
    png_create_read_struct := true
    png_create_info_struct := true
    png_read_info := none
    malloc := fun _ => true
    heap := fun _ => 0
    png_read_row := fun _ => none }

/-- The header of a 2x1 palette image (one channel before expansion). -/
def info_palette : PngInfo :=
  { width := 2, height := 1, color_type := PNG_COLOR_TYPE_PALETTE, bit_depth := 8, channels := 1 }

/-- The header of a 2x1 direct 3-channel image. -/
def info_rgb : PngInfo :=
  { width := 2, height := 1, color_type := PNG_COLOR_TYPE_RGB, bit_depth := 8, channels := 3 }

/-- A 2x1 palette image whose row libpng delivers expanded to the RGB triples
`(1,2,3)` and `(4,5,6)`; every byte of the fresh block holds `fill`. -/
def env_palette (fill : Byte) : Env :=
  { env_base with
    png_read_info := some info_palette
    heap := fun _ => fill
    png_read_row := fun _ => some [1, 2, 3, 4, 5, 6] }

/-- The direct 3-channel image with the same RGB triples. -/
def env_rgb (fill : Byte) : Env :=
  { env_base with
    png_read_info := some info_rgb
    heap := fun _ => fill
    png_read_row := fun _ => some [1, 2, 3, 4, 5, 6] }

/-- The header of a 1x1 4-channel image. -/
def info_rgba : PngInfo :=
  { width := 1, height := 1, color_type := PNG_COLOR_TYPE_RGBA, bit_depth := 8, channels := 4 }

/-- A 1x1 4-channel image with the pixel `(10,20,30,40)`. -/
def env_rgba (bgra : Bool) : Env :=
  { env_base with
    PIXELS_BGRA := bgra
    png_read_info := some info_rgba
    png_read_row := fun _ => some [10, 20, 30, 40] }

/-- The header of a 1x1 image with 16 bits per channel. -/
def info_depth16 : PngInfo :=
  { width := 1, height := 1, color_type := PNG_COLOR_TYPE_RGB, bit_depth := 16, channels := 3 }

/-- A well-signed file whose header declares bit depth 16. -/
def env_depth16 : Env := { env_base with png_read_info := some info_depth16 }

/-- The header of a 4-channel image of width `2^30` and height 1. -/
def info_wide : PngInfo :=
  { width := 1073741824, height := 1, color_type := PNG_COLOR_TYPE_RGBA, bit_depth := 8,
    channels := 4 }

/-- A 32-bit build decoding the image of width `2^30` and height 1, whose row
has `2^32` bytes. -/
def env_wide : Env :=
  { env_base with
    png_read_info := some info_wide
    png_read_row := fun _ => some (List.replicate 4294967296 0) }

/-- The same image on a 64-bit build. -/
def env_wide64 : Env := { env_wide with abi := Abi.lp64 }

/-- The rows of a 2x2 3-channel image whose pixel `(0,0)` is `(255,0,0)`. -/
def rows_2x2 (y : Nat) : List Byte :=
  if y = 0 then [255, 0, 0, 1, 2, 3] else [4, 5, 6, 7, 8, 9]

/-- The header of a 2x2 direct 3-channel image. -/
def info_2x2 : PngInfo :=
  { width := 2, height := 2, color_type := PNG_COLOR_TYPE_RGB, bit_depth := 8, channels := 3 }

/-- The 2x2 3-channel image, decoded into a block that holds 7 in every byte. -/
def env_2x2 : Env :=
  { env_base with
    png_read_info := some info_2x2
    heap := fun _ => 7
    png_read_row := fun y => some (rows_2x2 y) }

/-- The same image when libpng raises an error in the second row. -/
def env_2x2_fault : Env :=
  { env_2x2 with png_read_row := fun y => if y = 0 then some (rows_2x2 0) else none }

/-- The header of a 3-channel image of width 0 and height 2. -/
def info_w0 : PngInfo :=
  { width := 0, height := 2, color_type := PNG_COLOR_TYPE_RGB, bit_depth := 8, channels := 3 }

/-- An image of width 0: libpng delivers empty rows. -/
def env_w0 : Env :=
  { env_base with png_read_info := some info_w0, png_read_row := fun _ => some [] }

/-- The header of a 3-channel image of width 2 and height 0. -/
def info_h0 : PngInfo :=
  { width := 2, height := 0, color_type := PNG_COLOR_TYPE_RGB, bit_depth := 8, channels := 3 }

/-- An image of height 0. -/
def env_h0 : Env := { env_base with png_read_info := some info_h0 }

/-- The header of a 3-channel image of width 1 and height `2^30`. -/
def info_tall : PngInfo :=
  { width := 1, height := 1073741824, color_type := PNG_COLOR_TYPE_RGB, bit_depth := 8,
    channels := 3 }

/-- A 32-bit build decoding the image of width 1 and height `2^30`. -/
def env_tall : Env :=
  { env_base with png_read_info := some info_tall, png_read_row := fun _ => some [1, 2, 3] }

theorem wrapInt_id {z : Int} (h1 : -2147483648 ≤ z) (h2 : z < 2147483648) : wrapInt z = z := by
  unfold wrapInt; omega

theorem x_init_eq (abi : Abi) (w : Nat) (hw : w ≤ 2147483648) :
    (toInt (abi.pred w) + 1).toNat = w := by
  cases abi <;> simp only [toInt, wrapInt, Abi.pred, Abi.bits] <;> norm_num <;> omega

theorem for_x_from_width_eq (abi : Abi) (w : Nat) (hw : w ≤ 2147483648) (body : Int → St → St)
    (s : St) : for_x_from_width abi w body s = for_x body w s := by
  unfold for_x_from_width; rw [x_init_eq abi w hw]

theorem expand_body_mem (bgra : Bool) (p : Int) (n : Nat) (s : St)
    (hn : 4 * n + 3 ≤ 2147483647) (i : Int) :
    (expand_body bgra p n s).mem i =
      if i = p + 4 * n + 3 then 255
      else if i = p + 4 * n + 2 then s.mem (p + 3 * n + (if bgra then 0 else 2))
      else if i = p + 4 * n + 1 then s.mem (p + 3 * n + 1)
      else if i = p + 4 * n then s.mem (p + 3 * n + (if bgra then 2 else 0))
      else s.mem i := by
  have e3 : wrapInt ((n : Int) * 3) = 3 * n := by rw [wrapInt_id] <;> omega
  have e4 : wrapInt ((n : Int) * 4) = 4 * n := by rw [wrapInt_id] <;> omega
  have e31 : wrapInt (3 * (n : Int) + 1) = 3 * n + 1 := by rw [wrapInt_id] <;> omega
  have e32 : wrapInt (3 * (n : Int) + 2) = 3 * n + 2 := by rw [wrapInt_id] <;> omega
  have e41 : wrapInt (4 * (n : Int) + 1) = 4 * n + 1 := by rw [wrapInt_id] <;> omega
  have e42 : wrapInt (4 * (n : Int) + 2) = 4 * n + 2 := by rw [wrapInt_id] <;> omega
  have e43 : wrapInt (4 * (n : Int) + 3) = 4 * n + 3 := by rw [wrapInt_id] <;> omega
  cases bgra <;>
    simp only [expand_body, St.load, St.store, e3, e4, e31, e32, e41, e42, e43, if_true,
      if_false, Bool.false_eq_true, ← add_assoc, add_zero] <;>
    split_ifs <;> first | rfl | omega


theorem for_x_expand_mem (bgra : Bool) (p : Int) (n : Nat) (hn : 4 * n ≤ 2147483647) (s : St) :
    (∀ x : Nat, x < n →
      (for_x (expand_body bgra p) n s).mem (p + 4 * x + 3) = 255 ∧
      (for_x (expand_body bgra p) n s).mem (p + 4 * x + 2)
        = s.mem (p + 3 * x + (if bgra then 0 else 2)) ∧
      (for_x (expand_body bgra p) n s).mem (p + 4 * x + 1) = s.mem (p + 3 * x + 1) ∧
      (for_x (expand_body bgra p) n s).mem (p + 4 * x)
        = s.mem (p + 3 * x + (if bgra then 2 else 0))) ∧
    (∀ i : Int, (i < p ∨ p + 4 * n ≤ i) → (for_x (expand_body bgra p) n s).mem i = s.mem i) := by
  induction n generalizing s with
  | zero =>
    refine ⟨fun x hx => absurd hx (Nat.not_lt_zero x), fun i _ => rfl⟩
  | succ n ih =>
    have hb := expand_body_mem bgra p n s (by omega)
    obtain ⟨ih1, ih2⟩ := ih (by omega) (expand_body bgra p n s)
    have keep : ∀ i : Int, i < p + 4 * n → (expand_body bgra p n s).mem i = s.mem i := by
      intro i hi
      rw [hb]
      split_ifs <;> first | rfl | omega
    refine ⟨fun x hx => ?_, fun i hi => ?_⟩
    · show (for_x (expand_body bgra p) n (expand_body bgra p n s)).mem _ = _ ∧
        (for_x (expand_body bgra p) n (expand_body bgra p n s)).mem _ = _ ∧
        (for_x (expand_body bgra p) n (expand_body bgra p n s)).mem _ = _ ∧
        (for_x (expand_body bgra p) n (expand_body bgra p n s)).mem _ = _
      rcases Nat.lt_succ_iff_lt_or_eq.mp hx with hlt | rfl
      · obtain ⟨a, b, c, d⟩ := ih1 x hlt
        rw [a, b, c, d]
        refine ⟨rfl, keep _ ?_, keep _ ?_, keep _ ?_⟩ <;> cases bgra <;> omega
      · rw [ih2 _ (Or.inr (by omega)), ih2 _ (Or.inr (by omega)), ih2 _ (Or.inr (by omega)),
          ih2 _ (Or.inr (by omega)), hb, hb, hb, hb]
        refine ⟨?_, ?_, ?_, ?_⟩ <;> split_ifs <;> first | rfl | omega
    · show (for_x (expand_body bgra p) n (expand_body bgra p n s)).mem i = _
      rw [ih2 i (by push_cast at hi; omega), hb]
      push_cast at hi
      split_ifs <;> first | rfl | omega


theorem for_x_trace (body : Int → St → St) (ev : Nat → List Event) (n : Nat)
    (h : ∀ x : Nat, x < n → ∀ s : St, (body x s).trace = s.trace ++ ev x) (s : St) :
    (for_x body n s).trace = s.trace ++ loop_events ev n := by
  induction n generalizing s with
  | zero => simp [for_x, loop_events]
  | succ n ih =>
    show (for_x body n (body n s)).trace = _
    rw [ih (fun x hx => h x (by omega)), h n (by omega), loop_events, List.append_assoc]

theorem expand_body_trace (bgra : Bool) (p : Int) (n : Nat) (s : St)
    (hn : 4 * n + 3 ≤ 2147483647) :
    (expand_body bgra p n s).trace = s.trace ++ expand_events bgra p n := by
  have e3 : wrapInt ((n : Int) * 3) = 3 * n := by rw [wrapInt_id] <;> omega
  have e4 : wrapInt ((n : Int) * 4) = 4 * n := by rw [wrapInt_id] <;> omega
  have e31 : wrapInt (3 * (n : Int) + 1) = 3 * n + 1 := by rw [wrapInt_id] <;> omega
  have e32 : wrapInt (3 * (n : Int) + 2) = 3 * n + 2 := by rw [wrapInt_id] <;> omega
  have e41 : wrapInt (4 * (n : Int) + 1) = 4 * n + 1 := by rw [wrapInt_id] <;> omega
  have e42 : wrapInt (4 * (n : Int) + 2) = 4 * n + 2 := by rw [wrapInt_id] <;> omega
  have e43 : wrapInt (4 * (n : Int) + 3) = 4 * n + 3 := by rw [wrapInt_id] <;> omega
  cases bgra <;>
    simp [expand_body, expand_events, St.load, St.store, e3, e4, e31, e32, e41, e42, e43,
      ← add_assoc]

theorem load_mem_expand_events {bgra : Bool} {p : Int} {x : Nat} {i : Int}
    (h : Event.load i ∈ expand_events bgra p x) : p + 3 * x ≤ i ∧ i ≤ p + 3 * x + 2 := by
  cases bgra <;> simp [expand_events] at h <;> omega

theorem store_mem_expand_events {bgra : Bool} {p : Int} {x : Nat} {i : Int}
    (h : Event.store i ∈ expand_events bgra p x) : p + 4 * x ≤ i ∧ i ≤ p + 4 * x + 3 := by
  cases bgra <;> simp [expand_events] at h <;> omega

theorem load_mem_loop_expand {bgra : Bool} {p : Int} {n : Nat} {i : Int}
    (h : Event.load i ∈ loop_events (expand_events bgra p) n) : p ≤ i ∧ i < p + 3 * n := by
  induction n with
  | zero => simp [loop_events] at h
  | succ n ih =>
    rw [loop_events, List.mem_append] at h
    rcases h with h | h
    · have := load_mem_expand_events h
      push_cast; omega
    · have := ih h
      push_cast; omega

theorem readsBeforeWrites_expand_events (bgra : Bool) (p : Int) (x : Nat) :
    ReadsBeforeWrites (expand_events bgra p x) := by
  cases bgra <;> simp [ReadsBeforeWrites, expand_events]

theorem readsBeforeWrites_loop_expand (bgra : Bool) (p : Int) (n : Nat) :
    ReadsBeforeWrites (loop_events (expand_events bgra p) n) := by
  induction n with
  | zero => simp [ReadsBeforeWrites, loop_events]
  | succ n ih =>
    unfold ReadsBeforeWrites at ih ⊢
    rw [loop_events, List.pairwise_append]
    refine ⟨readsBeforeWrites_expand_events bgra p n, ih, ?_⟩
    intro e1 h1 e2 h2 i hi hl
    subst hi; subst hl
    have a := store_mem_expand_events h1
    have b := load_mem_loop_expand h2
    omega


theorem normalise_row_three (abi : Abi) (bgra : Bool) (w : Nat) (p : Int) (s : St)
    (hw : 4 * w ≤ 2147483647) :
    normalise_row abi bgra 3 w p s = for_x (expand_body bgra p) w s := by
  unfold normalise_row
  rw [if_pos rfl, for_x_from_width_eq abi w (by omega)]


theorem expand_in_place_aux (bgra : Bool) (w : Nat) (pRow : Int) (s : St)
    (hw : 4 * w ≤ 2147483647) :
    (for_x (expand_body bgra pRow) w s).mem = expand_copy bgra s.mem pRow w := by
  obtain ⟨h1, h2⟩ := for_x_expand_mem bgra pRow w hw s
  funext i
  unfold expand_copy
  by_cases hi : pRow ≤ i ∧ i < pRow + 4 * (w : Int)
  · rw [if_pos hi]
    obtain ⟨x, hx⟩ : ∃ x : Nat, (x : Int) = (i - pRow) / 4 := ⟨((i - pRow) / 4).toNat, by omega⟩
    have hxw : x < w := by omega
    obtain ⟨a, b, c, d⟩ := h1 x hxw
    have hk : (i - pRow) % 4 = 0 ∨ (i - pRow) % 4 = 1 ∨ (i - pRow) % 4 = 2 ∨
        (i - pRow) % 4 = 3 := by omega
    simp only [← hx]
    rcases hk with hk | hk | hk | hk
    · have e : i = pRow + 4 * (x : Int) := by omega
      rw [hk, e, d]; cases bgra <;> simp
    · have e : i = pRow + 4 * (x : Int) + 1 := by omega
      rw [hk, e, c]; cases bgra <;> simp
    · have e : i = pRow + 4 * (x : Int) + 2 := by omega
      rw [hk, e, b]; cases bgra <;> simp
    · have e : i = pRow + 4 * (x : Int) + 3 := by omega
      rw [hk, e, a]; simp
  · rw [if_neg hi]
    exact h2 i (by omega)

/-! ## The run up to the header -/

theorem res_create_surface_of_parsesHeader {env : Env} {info : PngInfo}
    (h : ParsesHeader env info) (p : Option GGLSurface) :
    res_create_surface env p = decode_info env info p header_trace := by
  obtain ⟨⟨file, hopen, hsig⟩, hr, hi, hinfo⟩ := h
  have hlen : min 8 file.length = 8 := by
    have := congrArg List.length hsig
    rw [List.length_take] at this
    simpa [png_signature] using this
  unfold res_create_surface
  simp [hopen, hsig, hr, hi, hinfo, hlen, png_sig_cmp, header_trace]

/-- The four ways `decode_info` ends. -/
theorem decode_info_cases (env : Env) (info : PngInfo) (p : Option GGLSurface)
    (t : List Event) :
    (supported info = false ∧ decode_info env info p t = { result := -7, pSurface := p, trace := t }) ∨
    (supported info = true ∧
      env.malloc (malloc_arg env.abi env.sizeof_GGLSurface info.width info.height) = false ∧
      decode_info env info p t = exit_label t true true true false (-8) p) ∨
    (supported info = true ∧
      env.malloc (malloc_arg env.abi env.sizeof_GGLSurface info.width info.height) = true ∧
      ∃ s : St, read_rows env info.channels info.width (stride_of env.abi info.width)
          info.height 0 (rows_start env info t) = (false, s) ∧
        decode_info env info p t = exit_label s.trace true true true true (-6) p) ∨
    (supported info = true ∧
      env.malloc (malloc_arg env.abi env.sizeof_GGLSurface info.width info.height) = true ∧
      ∃ s : St, read_rows env info.channels info.width (stride_of env.abi info.width)
          info.height 0 (rows_start env info t) = (true, s) ∧
        decode_info env info p t =
          exit_label (s.trace ++ [Event.assign_pSurface]) true true true true 0
            (some (surface_of env info s.mem))) := by
  unfold decode_info
  cases hs : supported info
  · left; simp
  · right
    cases hm : env.malloc (malloc_arg env.abi env.sizeof_GGLSurface info.width info.height)
    · left; simp
    · right
      simp only [Bool.not_true, Bool.false_eq_true, if_false]
      rcases hr : read_rows env info.channels info.width (stride_of env.abi info.width)
          info.height 0 (rows_start env info t) with ⟨b, s⟩
      cases b
      · left; exact ⟨trivial, trivial, s, rfl, rfl⟩
      · right; exact ⟨trivial, trivial, s, rfl, rfl⟩

/-- The ways `res_create_surface` ends before the header is parsed, and the
hand-over to `decode_info` once it is. -/
theorem res_create_surface_cases (env : Env) (p : Option GGLSurface) :
    (env.fopen = none ∧
      res_create_surface env p = exit_label [] false false false false (-1) p) ∨
    (∃ file : List Byte, env.fopen = some file ∧ file.length < 8 ∧
      res_create_surface env p = exit_label [Event.fopen] true false false false (-2) p) ∨
    (∃ file : List Byte, env.fopen = some file ∧ 8 ≤ file.length ∧
      file.take 8 ≠ png_signature ∧
      res_create_surface env p = exit_label [Event.fopen] true false false false (-3) p) ∨
    (∃ file : List Byte, env.fopen = some file ∧ file.take 8 = png_signature ∧
      env.png_create_read_struct = false ∧
      res_create_surface env p = exit_label [Event.fopen] true false false false (-4) p) ∨
    (∃ file : List Byte, env.fopen = some file ∧ file.take 8 = png_signature ∧
      env.png_create_read_struct = true ∧ env.png_create_info_struct = false ∧
      res_create_surface env p =
        exit_label [Event.fopen, Event.png_create_read_struct] true true false false (-5) p) ∨
    (∃ file : List Byte, env.fopen = some file ∧ file.take 8 = png_signature ∧
      env.png_create_read_struct = true ∧ env.png_create_info_struct = true ∧
      env.png_read_info = none ∧
      res_create_surface env p = exit_label header_trace true true true false (-6) p) ∨
    (∃ info : PngInfo, ParsesHeader env info ∧
      res_create_surface env p = decode_info env info p header_trace) := by
  cases hopen : env.fopen with
  | none => left; exact ⟨rfl, by simp [res_create_surface, hopen]⟩
  | some file =>
    right
    by_cases hlen : file.length < 8
    · left
      refine ⟨file, rfl, hlen, ?_⟩
      have : min 8 file.length ≠ 8 := by omega
      simp [res_create_surface, hopen, this]
    · right
      have hmin : min 8 file.length = 8 := by omega
      by_cases hsig : file.take 8 = png_signature
      · right
        cases hr : env.png_create_read_struct
        · left
          refine ⟨file, rfl, hsig, rfl, ?_⟩
          simp [res_create_surface, hopen, hmin, hsig, png_sig_cmp, hr]
        · right
          cases hi : env.png_create_info_struct
          · left
            refine ⟨file, rfl, hsig, rfl, rfl, ?_⟩
            simp [res_create_surface, hopen, hmin, hsig, png_sig_cmp, hr, hi]
          · right
            cases hinfo : env.png_read_info with
            | none =>
              left
              refine ⟨file, rfl, hsig, rfl, rfl, rfl, ?_⟩
              simp [res_create_surface, hopen, hmin, hsig, png_sig_cmp, hr, hi, hinfo,
                header_trace]
            | some info =>
              right
              have hp : ParsesHeader env info := ⟨⟨file, hopen, hsig⟩, hr, hi, hinfo⟩
              exact ⟨info, hp, res_create_surface_of_parsesHeader hp p⟩
      · left
        refine ⟨file, rfl, by omega, hsig, ?_⟩
        simp [res_create_surface, hopen, hmin, hsig, png_sig_cmp]

/-! ## The exchange loop and whole rows -/

theorem swap_body_mem (p : Int) (n : Nat) (s : St) (hn : 4 * n + 3 ≤ 2147483647) (i : Int) :
    (swap_body p n s).mem i =
      if i = p + 4 * n + 2 then s.mem (p + 4 * n)
      else if i = p + 4 * n then s.mem (p + 4 * n + 2)
      else s.mem i := by
  have e4 : wrapInt ((n : Int) * 4) = 4 * n := by rw [wrapInt_id] <;> omega
  have e42 : wrapInt (4 * (n : Int) + 2) = 4 * n + 2 := by rw [wrapInt_id] <;> omega
  simp only [swap_body, St.load, St.store, e4, e42, ← add_assoc]

theorem for_x_swap_mem (p : Int) (n : Nat) (hn : 4 * n ≤ 2147483647) (s : St) :
    (for_x (swap_body p) n s).mem = swap_copy s.mem p n := by
  induction n generalizing s with
  | zero =>
    funext i
    have hno : ¬ (p ≤ i ∧ i < p + 4 * ((0 : Nat) : Int)) := by
      intro h; omega
    simp only [for_x, swap_copy, if_neg hno]
  | succ n ih =>
    show (for_x (swap_body p) n (swap_body p n s)).mem = _
    rw [ih (by omega)]
    funext i
    simp only [swap_copy, swap_body_mem p n s (by omega)]
    push_cast
    split_ifs <;> first | rfl | omega | (congr 1; omega)

theorem normalise_row_mem (abi : Abi) (bgra : Bool) (ch : Int) (w : Nat) (p : Int) (s : St)
    (hw : 4 * w ≤ 2147483647) :
    (normalise_row abi bgra ch w p s).mem = norm_copy bgra ch s.mem p w := by
  unfold normalise_row norm_copy
  split_ifs
  · rw [for_x_from_width_eq abi w (by omega)]
    have h := (expand_in_place_aux bgra w p s hw)
    exact h
  · rw [for_x_from_width_eq abi w (by omega)]
    exact for_x_swap_mem p w hw s
  · rfl

theorem norm_copy_frame (bgra : Bool) (ch : Int) (src : Int → Byte) (p : Int) (w : Nat)
    (i : Int) (hi : i < p ∨ p + 4 * (w : Int) ≤ i) : norm_copy bgra ch src p w i = src i := by
  have hno : ¬ (p ≤ i ∧ i < p + 4 * (w : Int)) := by omega
  unfold norm_copy
  split_ifs
  · simp only [expand_copy, if_neg hno]
  · simp only [swap_copy, if_neg hno]
  · rfl

theorem norm_copy_local (bgra : Bool) (ch : Int) (m1 m2 : Int → Byte) (p : Int) (w : Nat)
    (h : ∀ i : Int, p ≤ i → i < p + 4 * (w : Int) → m1 i = m2 i)
    (i : Int) (h1 : p ≤ i) (h2 : i < p + 4 * (w : Int)) :
    norm_copy bgra ch m1 p w i = norm_copy bgra ch m2 p w i := by
  have hin : p ≤ i ∧ i < p + 4 * (w : Int) := ⟨h1, h2⟩
  unfold norm_copy
  split_ifs
  · simp only [expand_copy, if_pos hin]
    split_ifs
    · rfl
    · exact h _ (by omega) (by omega)
    · exact h _ (by omega) (by omega)
  · simp only [swap_copy, if_pos hin]
    split_ifs
    · exact h _ (by omega) (by omega)
    · exact h _ (by omega) (by omega)
    · exact h _ h1 h2
  · exact h _ h1 h2

theorem storeRow_frame (m : Int → Byte) (p : Int) (row : List Byte) (i : Int)
    (hi : i < p ∨ p + (row.length : Int) ≤ i) : storeRow m p row i = m i := by
  have hno : ¬ (p ≤ i ∧ i < p + (row.length : Int)) := by omega
  simp only [storeRow, if_neg hno]

theorem storeRow_local (m1 m2 : Int → Byte) (p : Int) (row : List Byte) (i : Int)
    (h : m1 i = m2 i) : storeRow m1 p row i = storeRow m2 p row i := by
  unfold storeRow
  split_ifs
  · rfl
  · exact h

theorem stride_of_eq (abi : Abi) (w : Nat) (hw : 4 * w ≤ 2147483647) :
    stride_of abi w = 4 * w := by
  cases abi <;> simp only [stride_of, Abi.size_t, Abi.bits] <;> omega

/-- The memory the row loop leaves: every row holds its normalised bytes, and
nothing outside the rows is changed. -/
theorem read_rows_mem (env : Env) (ch : Int) (w : Nat) (rows : Nat → List Byte)
    (hw : 4 * w ≤ 2147483647) (n : Nat) :
    ∀ (y : Nat) (s : St), (y + n) * (4 * w) < 2 ^ env.abi.bits →
      (∀ y' : Nat, y ≤ y' → y' < y + n →
        env.png_read_row y' = some (rows y') ∧ (rows y').length ≤ 4 * w) →
      ∃ s' : St, read_rows env ch w (stride_of env.abi w) n y s = (true, s') ∧
        (∀ y' : Nat, y ≤ y' → y' < y + n → ∀ j : Nat, j < 4 * w →
          s'.mem (((4 * w * y' : Nat) : Int) + j) =
            norm_copy env.PIXELS_BGRA ch (storeRow s.mem ((4 * w * y' : Nat) : Int) (rows y'))
              ((4 * w * y' : Nat) : Int) w (((4 * w * y' : Nat) : Int) + j)) ∧
        (∀ i : Int, (i < ((4 * w * y : Nat) : Int) ∨ ((4 * w * (y + n) : Nat) : Int) ≤ i) →
          s'.mem i = s.mem i) := by
  induction n with
  | zero =>
    intro y s _ _
    exact ⟨s, rfl, fun y' h1 h2 => absurd h2 (by omega), fun i _ => rfl⟩
  | succ n ih =>
    intro y s hsz hrows
    obtain ⟨hrow, hlen⟩ := hrows y (le_refl y) (by omega)
    have hoff : env.abi.size_t (y * stride_of env.abi w) = 4 * w * y := by
      rw [stride_of_eq env.abi w hw]
      unfold Abi.size_t
      have : y * (4 * w) ≤ (y + (n + 1)) * (4 * w) := Nat.mul_le_mul_right _ (by omega)
      rw [Nat.mod_eq_of_lt (by omega)]
      ring
    -- one row
    have hstep : read_rows env ch w (stride_of env.abi w) (n + 1) y s =
        read_rows env ch w (stride_of env.abi w) n (y + 1)
          (normalise_row env.abi env.PIXELS_BGRA ch w ((4 * w * y : Nat) : Int)
            { mem := storeRow s.mem ((4 * w * y : Nat) : Int) (rows y),
              trace := s.trace ++ [Event.png_read_row y] }) := by
      simp only [read_rows, hrow, hoff]
    obtain ⟨s', hs', hin, hout⟩ := ih (y + 1)
      (normalise_row env.abi env.PIXELS_BGRA ch w ((4 * w * y : Nat) : Int)
        { mem := storeRow s.mem ((4 * w * y : Nat) : Int) (rows y),
          trace := s.trace ++ [Event.png_read_row y] })
      (by have : y + 1 + n = y + (n + 1) := by omega
          rw [this]; exact hsz)
      (fun y' h1 h2 => hrows y' (by omega) (by omega))
    rw [normalise_row_mem _ _ _ _ _ _ hw] at hin hout
    have hnext : 4 * w * (y + 1) = 4 * w * y + 4 * w := by ring
    -- the memory after row `y` agrees with `s` outside that row
    have hs1 : ∀ i : Int, (i < ((4 * w * y : Nat) : Int) ∨ ((4 * w * y : Nat) : Int) + 4 * (w : Int) ≤ i) →
        norm_copy env.PIXELS_BGRA ch (storeRow s.mem ((4 * w * y : Nat) : Int) (rows y))
          ((4 * w * y : Nat) : Int) w i = s.mem i := by
      intro i hi
      rw [norm_copy_frame _ _ _ _ _ _ hi, storeRow_frame _ _ _ _ (by omega)]
    refine ⟨s', by rw [hstep, hs'], ?_, ?_⟩
    · intro y' h1 h2 j hj
      rcases Nat.eq_or_lt_of_le h1 with heq | hlt
      · subst heq
        rw [hout _ (Or.inl (by omega))]
      · have hle : 4 * w * (y + 1) ≤ 4 * w * y' := Nat.mul_le_mul_left _ hlt
        rw [hin y' hlt (by omega) j hj]
        apply norm_copy_local
        · intro i hi1 hi2
          apply storeRow_local
          exact hs1 i (Or.inr (by omega))
        · omega
        · omega
    · intro i hi
      have e : 4 * w * (y + 1 + n) = 4 * w * (y + (n + 1)) := by ring_nf
      have hle : 4 * w * (y + 1) ≤ 4 * w * (y + (n + 1)) := Nat.mul_le_mul_left _ (by omega)
      rw [hout i (by omega)]
      exact hs1 i (by omega)

theorem supported_iff (info : PngInfo) :
    supported info = true ↔
      (info.bit_depth = 8 ∧
        ((info.channels = 3 ∧ info.color_type = PNG_COLOR_TYPE_RGB) ∨
         (info.channels = 4 ∧ info.color_type = PNG_COLOR_TYPE_RGBA) ∨
         (info.channels = 1 ∧ info.color_type = PNG_COLOR_TYPE_PALETTE))) := by
  simp [supported, or_assoc]

/-- A run in which the header is supported, `malloc` succeeds and libpng
delivers every row succeeds, with the memory left by the row loop as pixel
data. -/
theorem decode_info_success (env : Env) (info : PngInfo) (p : Option GGLSurface)
    (t : List Event) (s' : St) (hs : supported info = true)
    (hm : env.malloc (malloc_arg env.abi env.sizeof_GGLSurface info.width info.height) = true)
    (hr : read_rows env info.channels info.width (stride_of env.abi info.width) info.height 0
      (rows_start env info t) = (true, s')) :
    decode_info env info p t =
      exit_label (s'.trace ++ [Event.assign_pSurface]) true true true true 0
        (some (surface_of env info s'.mem)) := by
  unfold decode_info
  simp only [hs, hm, Bool.not_true, Bool.false_eq_true, if_false, hr]

theorem norm_copy_three (bgra : Bool) (src : Int → Byte) (p : Int) (w : Nat) :
    norm_copy bgra 3 src p w = expand_copy bgra src p w := by
  simp [norm_copy]

theorem norm_copy_one (bgra : Bool) (src : Int → Byte) (p : Int) (w : Nat) :
    norm_copy bgra 1 src p w = src := by
  cases bgra <;> simp [norm_copy]

/-! ## Where the loops read and write -/

theorem swap_body_trace (p : Int) (n : Nat) (s : St) (hn : 4 * n + 3 ≤ 2147483647) :
    (swap_body p n s).trace = s.trace ++ swap_events p n := by
  have e4 : wrapInt ((n : Int) * 4) = 4 * n := by rw [wrapInt_id] <;> omega
  have e42 : wrapInt (4 * (n : Int) + 2) = 4 * n + 2 := by rw [wrapInt_id] <;> omega
  simp [swap_body, swap_events, St.load, St.store, e4, e42, ← add_assoc]

theorem accessIn_expand_events (bgra : Bool) (p : Int) (w x : Nat) (hx : x < w) :
    ∀ e ∈ expand_events bgra p x, AccessIn p (p + 4 * (w : Int)) e := by
  intro e he
  cases bgra <;> simp [expand_events] at he <;>
    rcases he with h | h | h | h | h | h | h <;> subst h <;> simp only [AccessIn] <;> omega

theorem accessIn_swap_events (p : Int) (w x : Nat) (hx : x < w) :
    ∀ e ∈ swap_events p x, AccessIn p (p + 4 * (w : Int)) e := by
  intro e he
  simp [swap_events] at he
  rcases he with h | h | h | h <;> subst h <;> simp only [AccessIn] <;> omega

theorem mem_loop_events {ev : Nat → List Event} {n : Nat} {e : Event}
    (h : e ∈ loop_events ev n) : ∃ x : Nat, x < n ∧ e ∈ ev x := by
  induction n with
  | zero => simp [loop_events] at h
  | succ n ih =>
    rw [loop_events, List.mem_append] at h
    rcases h with h | h
    · exact ⟨n, by omega, h⟩
    · obtain ⟨x, hx, hm⟩ := ih h
      exact ⟨x, by omega, hm⟩

theorem length_loop_events (ev : Nat → List Event) (k n : Nat)
    (h : ∀ x : Nat, x < n → (ev x).length = k) : (loop_events ev n).length = k * n := by
  induction n with
  | zero => simp [loop_events]
  | succ n ih =>
    rw [loop_events, List.length_append, ih (fun x hx => h x (by omega)), h n (by omega)]
    ring

theorem normalise_row_trace_three (abi : Abi) (bgra : Bool) (w : Nat) (p : Int) (s : St)
    (hw : 4 * w ≤ 2147483647) :
    (normalise_row abi bgra 3 w p s).trace = s.trace ++ loop_events (expand_events bgra p) w := by
  rw [normalise_row_three abi bgra w p s hw]
  exact for_x_trace _ _ w (fun x hx s => expand_body_trace bgra p x s (by omega)) s

theorem normalise_row_trace_four (abi : Abi) (w : Nat) (p : Int) (s : St)
    (hw : 4 * w ≤ 2147483647) :
    (normalise_row abi true 4 w p s).trace = s.trace ++ loop_events (swap_events p) w := by
  have h : normalise_row abi true 4 w p s = for_x (swap_body p) w s := by
    unfold normalise_row
    rw [if_neg (by decide), if_pos (by decide), for_x_from_width_eq abi w (by omega)]
  rw [h]
  exact for_x_trace _ _ w (fun x hx s => swap_body_trace p x s (by omega)) s

/-- Whatever the channel count, the accesses of the normalisation of a row
stay in the `4 * w` bytes of the row. -/
theorem normalise_row_accessIn (abi : Abi) (bgra : Bool) (ch : Int) (w : Nat) (p : Int) (s : St)
    (hw : 4 * w ≤ 2147483647) :
    ∃ ev : List Event, (normalise_row abi bgra ch w p s).trace = s.trace ++ ev ∧
      ∀ e ∈ ev, AccessIn p (p + 4 * (w : Int)) e := by
  by_cases h3 : ch = 3
  · subst h3
    refine ⟨_, normalise_row_trace_three abi bgra w p s hw, fun e he => ?_⟩
    obtain ⟨x, hx, hm⟩ := mem_loop_events he
    exact accessIn_expand_events bgra p w x hx e hm
  · by_cases h4 : bgra = true ∧ ch = 4
    · obtain ⟨hb, hc⟩ := h4
      subst hb; subst hc
      refine ⟨_, normalise_row_trace_four abi w p s hw, fun e he => ?_⟩
      obtain ⟨x, hx, hm⟩ := mem_loop_events he
      exact accessIn_swap_events p w x hx e hm
    · refine ⟨[], ?_, fun e he => absurd he (List.not_mem_nil e)⟩
      unfold normalise_row
      rw [if_neg h3, if_neg (by simpa using h4), List.append_nil]

theorem accessIn_mono {lo hi lo' hi' : Int} (h1 : lo' ≤ lo) (h2 : hi ≤ hi') {e : Event}
    (h : AccessIn lo hi e) : AccessIn lo' hi' e := by
  cases e <;> simp only [AccessIn] at h ⊢ <;> omega

/-- Every access of the row loop falls in the row it belongs to, hence below
`4 * w * (y + n)` when the loop handles rows `y .. y + n - 1`. -/
theorem read_rows_accessIn (env : Env) (ch : Int) (w : Nat) (hw : 4 * w ≤ 2147483647)
    (n : Nat) :
    ∀ (y : Nat) (s : St), ∃ ev : List Event,
      (read_rows env ch w (stride_of env.abi w) n y s).2.trace = s.trace ++ ev ∧
      ∀ e ∈ ev, ∃ y' : Nat, y ≤ y' ∧ y' < y + n ∧
        AccessIn ((env.abi.size_t (y' * stride_of env.abi w) : Nat) : Int)
          (((env.abi.size_t (y' * stride_of env.abi w) : Nat) : Int) + 4 * (w : Int)) e ∧
        AccessIn 0 ((4 * w * (y + n) : Nat) : Int) e := by
  induction n with
  | zero =>
    intro y s
    exact ⟨[], by simp [read_rows], fun e he => absurd he (List.not_mem_nil e)⟩
  | succ n ih =>
    intro y s
    have hoff : env.abi.size_t (y * stride_of env.abi w) ≤ 4 * w * y := by
      rw [stride_of_eq env.abi w hw]
      unfold Abi.size_t
      calc y * (4 * w) % 2 ^ env.abi.bits ≤ y * (4 * w) := Nat.mod_le _ _
        _ = 4 * w * y := Nat.mul_comm _ _
    have hy1 : 4 * w * (y + (n + 1)) = 4 * w * y + 4 * w + 4 * w * n := by ring
    cases hrow : env.png_read_row y with
    | none =>
      refine ⟨[Event.png_read_row y], by simp [read_rows, hrow], ?_⟩
      intro e he
      rw [List.mem_singleton] at he
      subst he
      exact ⟨y, le_refl y, by omega, trivial, trivial⟩
    | some row =>
      obtain ⟨ev1, h1, h1'⟩ := normalise_row_accessIn env.abi env.PIXELS_BGRA ch w
        ((env.abi.size_t (y * stride_of env.abi w) : Nat) : Int)
        { mem := storeRow s.mem ((env.abi.size_t (y * stride_of env.abi w) : Nat) : Int) row,
          trace := s.trace ++ [Event.png_read_row y] } hw
      obtain ⟨ev2, h2, h2'⟩ := ih (y + 1)
        (normalise_row env.abi env.PIXELS_BGRA ch w
          ((env.abi.size_t (y * stride_of env.abi w) : Nat) : Int)
          { mem := storeRow s.mem ((env.abi.size_t (y * stride_of env.abi w) : Nat) : Int) row,
            trace := s.trace ++ [Event.png_read_row y] })
      have hstep : read_rows env ch w (stride_of env.abi w) (n + 1) y s =
          read_rows env ch w (stride_of env.abi w) n (y + 1)
            (normalise_row env.abi env.PIXELS_BGRA ch w
              ((env.abi.size_t (y * stride_of env.abi w) : Nat) : Int)
              { mem := storeRow s.mem
                  ((env.abi.size_t (y * stride_of env.abi w) : Nat) : Int) row,
                trace := s.trace ++ [Event.png_read_row y] }) := by
        simp only [read_rows, hrow]
      refine ⟨Event.png_read_row y :: (ev1 ++ ev2), ?_, ?_⟩
      · rw [hstep, h2, h1]
        simp
      · intro e he
        rcases List.mem_cons.mp he with h | h
        · subst h
          exact ⟨y, le_refl y, by omega, trivial, trivial⟩
        · rcases List.mem_append.mp h with h | h
          · refine ⟨y, le_refl y, by omega, h1' e h, ?_⟩
            exact accessIn_mono (by omega) (by omega) (h1' e h)
          · obtain ⟨y', hy1', hy2', ha, hb⟩ := h2' e h
            refine ⟨y', by omega, by omega, ha, ?_⟩
            have e' : 4 * w * (y + 1 + n) = 4 * w * (y + (n + 1)) := by ring_nf
            rw [e'] at hb
            exact hb

theorem expand_body_rowEvents (bgra : Bool) (p x : Int) (s : St) :
    ∃ ev : List Event, (expand_body bgra p x s).trace = s.trace ++ ev ∧
      ∀ e ∈ ev, RowEvent e := by
  cases bgra
  · refine ⟨_, by simp only [expand_body, St.load, St.store, List.append_assoc]; rfl, ?_⟩
    intro e he
    simp at he
    rcases he with h | h | h | h | h | h | h <;> subst h <;> trivial
  · refine ⟨_, by simp only [expand_body, St.load, St.store, List.append_assoc]; rfl, ?_⟩
    intro e he
    simp at he
    rcases he with h | h | h | h | h | h | h <;> subst h <;> trivial

theorem swap_body_rowEvents (p x : Int) (s : St) :
    ∃ ev : List Event, (swap_body p x s).trace = s.trace ++ ev ∧ ∀ e ∈ ev, RowEvent e := by
  refine ⟨_, by simp only [swap_body, St.load, St.store, List.append_assoc]; rfl, ?_⟩
  intro e he
  simp at he
  rcases he with h | h | h | h <;> subst h <;> trivial

theorem for_x_rowEvents (body : Int → St → St)
    (h : ∀ (x : Int) (s : St), ∃ ev : List Event, (body x s).trace = s.trace ++ ev ∧
      ∀ e ∈ ev, RowEvent e) (n : Nat) (s : St) :
    ∃ ev : List Event, (for_x body n s).trace = s.trace ++ ev ∧ ∀ e ∈ ev, RowEvent e := by
  induction n generalizing s with
  | zero => exact ⟨[], by simp [for_x], by simp⟩
  | succ n ih =>
    obtain ⟨ev1, h1, h1'⟩ := h n s
    obtain ⟨ev2, h2, h2'⟩ := ih (body n s)
    refine ⟨ev1 ++ ev2, ?_, ?_⟩
    · show (for_x body n (body n s)).trace = _
      rw [h2, h1, List.append_assoc]
    · intro e he
      rcases List.mem_append.mp he with h | h
      · exact h1' e h
      · exact h2' e h

theorem normalise_row_rowEvents (abi : Abi) (bgra : Bool) (ch : Int) (w : Nat) (p : Int)
    (s : St) :
    ∃ ev : List Event, (normalise_row abi bgra ch w p s).trace = s.trace ++ ev ∧
      ∀ e ∈ ev, RowEvent e := by
  unfold normalise_row for_x_from_width
  split_ifs
  · exact for_x_rowEvents _ (expand_body_rowEvents bgra p) _ s
  · exact for_x_rowEvents _ (swap_body_rowEvents p) _ s
  · exact ⟨[], by simp, by simp⟩

/-- The row loop only adds row events to the trace, and when it runs to the
end it has called `png_read_row` for each of its rows. -/
theorem read_rows_rowEvents (env : Env) (ch : Int) (w stride : Nat) (n : Nat) :
    ∀ (y : Nat) (s : St), ∃ ev : List Event,
      (read_rows env ch w stride n y s).2.trace = s.trace ++ ev ∧
      (∀ e ∈ ev, RowEvent e) ∧
      ((read_rows env ch w stride n y s).1 = true →
        ∀ y' : Nat, y ≤ y' → y' < y + n → Event.png_read_row y' ∈ ev) := by
  induction n with
  | zero =>
    intro y s
    exact ⟨[], by simp [read_rows], by simp, fun _ y' h1 h2 => absurd h2 (by omega)⟩
  | succ n ih =>
    intro y s
    cases hrow : env.png_read_row y with
    | none =>
      refine ⟨[Event.png_read_row y], by simp [read_rows, hrow], ?_, ?_⟩
      · intro e he
        rw [List.mem_singleton] at he
        subst he
        trivial
      · intro h
        simp [read_rows, hrow] at h
    | some row =>
      obtain ⟨ev1, h1, h1'⟩ := normalise_row_rowEvents env.abi env.PIXELS_BGRA ch w
        ((env.abi.size_t (y * stride) : Nat) : Int)
        { mem := storeRow s.mem ((env.abi.size_t (y * stride) : Nat) : Int) row,
          trace := s.trace ++ [Event.png_read_row y] }
      obtain ⟨ev2, h2, h2', h2''⟩ := ih (y + 1)
        (normalise_row env.abi env.PIXELS_BGRA ch w ((env.abi.size_t (y * stride) : Nat) : Int)
          { mem := storeRow s.mem ((env.abi.size_t (y * stride) : Nat) : Int) row,
            trace := s.trace ++ [Event.png_read_row y] })
      have hstep : read_rows env ch w stride (n + 1) y s =
          read_rows env ch w stride n (y + 1)
            (normalise_row env.abi env.PIXELS_BGRA ch w
              ((env.abi.size_t (y * stride) : Nat) : Int)
              { mem := storeRow s.mem ((env.abi.size_t (y * stride) : Nat) : Int) row,
                trace := s.trace ++ [Event.png_read_row y] }) := by
        simp only [read_rows, hrow]
      refine ⟨Event.png_read_row y :: (ev1 ++ ev2), ?_, ?_, ?_⟩
      · rw [hstep, h2, h1]
        simp
      · intro e he
        rcases List.mem_cons.mp he with h | h
        · subst h; trivial
        · rcases List.mem_append.mp h with h | h
          · exact h1' e h
          · exact h2' e h
      · intro hok y' hy1 hy2
        rw [hstep] at hok
        rcases Nat.eq_or_lt_of_le hy1 with heq | hlt
        · subst heq; exact List.mem_cons_self _ _
        · exact List.mem_cons_of_mem _ (List.mem_append_right _ (h2'' hok y' hlt (by omega)))

/-! ## When the row loop runs to the end -/

/-- The row loop runs to the end exactly when libpng delivers each of its
rows. -/
theorem read_rows_flag (env : Env) (ch : Int) (w stride : Nat) (n : Nat) :
    ∀ (y : Nat) (s : St),
      (read_rows env ch w stride n y s).1 = true ↔
        ∀ y' : Nat, y ≤ y' → y' < y + n → env.png_read_row y' ≠ none := by
  induction n with
  | zero =>
    intro y s
    simp [read_rows]
    intro y' h1 h2
    omega
  | succ n ih =>
    intro y s
    cases hrow : env.png_read_row y with
    | none =>
      simp only [read_rows, hrow]
      constructor
      · intro h; exact absurd h (by decide)
      · intro h; exact absurd hrow (h y (le_refl y) (by omega))
    | some row =>
      simp only [read_rows, hrow]
      rw [ih]
      constructor
      · intro h y' h1 h2
        rcases Nat.eq_or_lt_of_le h1 with heq | hlt
        · subst heq; rw [hrow]; exact Option.some_ne_none row
        · exact h y' hlt (by omega)
      · intro h y' h1 h2
        exact h y' (by omega) (by omega)

theorem x_init_zero (abi : Abi) : toInt (abi.pred 0) = -1 := by
  cases abi <;> (simp only [toInt, wrapInt, Abi.pred, Abi.bits]; omega)

theorem for_x_from_width_zero (abi : Abi) (body : Int → St → St) (s : St) :
    for_x_from_width abi 0 body s = s := by
  unfold for_x_from_width
  rw [x_init_zero]
  rfl

theorem normalise_row_zero_width (abi : Abi) (bgra : Bool) (ch : Int) (p : Int) (s : St) :
    normalise_row abi bgra ch 0 p s = s := by
  unfold normalise_row
  split_ifs
  · exact for_x_from_width_zero _ _ _
  · exact for_x_from_width_zero _ _ _
  · rfl

/-- With width 0 the row loop only calls `png_read_row`; with no rows it does
nothing at all. -/
theorem read_rows_zero (env : Env) (ch : Int) (w stride : Nat) (n : Nat)
    (h0 : w = 0 ∨ n = 0) :
    ∀ (y : Nat) (s : St), ∃ ev : List Event,
      (read_rows env ch w stride n y s).2.trace = s.trace ++ ev ∧
      (∀ e ∈ ev, ∃ y' : Nat, e = Event.png_read_row y') ∧
      (n = 0 → ev = [] ∧ (read_rows env ch w stride n y s).2.mem = s.mem) := by
  induction n with
  | zero =>
    intro y s
    exact ⟨[], by simp [read_rows], fun e he => absurd he (List.not_mem_nil e),
      fun _ => ⟨rfl, rfl⟩⟩
  | succ n ih =>
    have hw : w = 0 := by
      rcases h0 with h | h
      · exact h
      · exact absurd h (Nat.succ_ne_zero n)
    subst hw
    intro y s
    cases hrow : env.png_read_row y with
    | none =>
      exact ⟨[Event.png_read_row y], by simp [read_rows, hrow],
        fun e he => ⟨y, List.mem_singleton.mp he⟩, fun h => absurd h (Nat.succ_ne_zero n)⟩
    | some row =>
      obtain ⟨ev, hev, hall, -⟩ := ih (Or.inl rfl) (y + 1)
        { mem := storeRow s.mem ((env.abi.size_t (y * stride) : Nat) : Int) row,
          trace := s.trace ++ [Event.png_read_row y] }
      refine ⟨Event.png_read_row y :: ev, ?_, ?_, fun h => absurd h (Nat.succ_ne_zero n)⟩
      · simp only [read_rows, hrow, normalise_row_zero_width]
        rw [hev]
        simp
      · intro e he
        rcases List.mem_cons.mp he with h | h
        · exact ⟨y, h⟩
        · exact hall e h

theorem read_rows_succ (env : Env) (ch : Int) (w stride n y : Nat) (s : St) (row : List Byte)
    (hrow : env.png_read_row y = some row) :
    read_rows env ch w stride (n + 1) y s =
      read_rows env ch w stride n (y + 1)
        (normalise_row env.abi env.PIXELS_BGRA ch w ((env.abi.size_t (y * stride) : Nat) : Int)
          { mem := storeRow s.mem ((env.abi.size_t (y * stride) : Nat) : Int) row,
            trace := s.trace ++ [Event.png_read_row y] }) := by
  simp only [read_rows, hrow]

theorem x_init_exact (abi : Abi) (w : Nat) (hw : 4 * w ≤ 2147483647) :
    toInt (abi.pred w) = (w : Int) - 1 := by
  cases abi <;> (simp only [toInt, wrapInt, Abi.pred, Abi.bits]; norm_num; omega)

theorem malloc_arg_exact (abi : Abi) (sz w h : Nat) (hsz : sz + 4 * w * h < 2 ^ abi.bits) :
    malloc_arg abi sz w h = sz + 4 * w * h := by
  unfold malloc_arg pixelSize_of stride_of Abi.size_t
  rcases Nat.eq_zero_or_pos h with h0 | hpos
  · subst h0
    simp only [Nat.mul_zero, Nat.zero_mod, Nat.add_zero] at hsz ⊢
    exact Nat.mod_eq_of_lt hsz
  · have h1 : 4 * w ≤ 4 * w * h := Nat.le_mul_of_pos_right _ hpos
    rw [Nat.mod_eq_of_lt (a := 4 * w) (by omega), Nat.mod_eq_of_lt (a := 4 * w * h) (by omega),
      Nat.mod_eq_of_lt hsz]

theorem exit_label_trace (t : List Event) (fp a b sf : Bool) (r : Int)
    (p : Option GGLSurface) :
    (exit_label t fp a b sf r p).trace =
      t ++ (Event.png_destroy_read_struct a b ::
        ((if fp then [Event.fclose] else []) ++
          (if decide (r < 0) && sf then [Event.free] else []))) := by
  cases fp <;> cases h : (decide (r < 0) && sf) <;> simp [exit_label, h]

theorem exit_label_result (t : List Event) (fp a b sf : Bool) (r : Int)
    (p : Option GGLSurface) : (exit_label t fp a b sf r p).result = r := rfl

theorem exit_label_pSurface (t : List Event) (fp a b sf : Bool) (r : Int)
    (p : Option GGLSurface) : (exit_label t fp a b sf r p).pSurface = p := rfl

theorem rows_start_trace (env : Env) (info : PngInfo) (t : List Event) :
    ∃ tl : List Event, (rows_start env info t).trace =
        t ++ Event.malloc (malloc_arg env.abi env.sizeof_GGLSurface info.width info.height) :: tl ∧
      (tl = [] ∨ tl = [Event.png_set_palette_to_rgb]) := by
  unfold rows_start
  dsimp only
  split_ifs
  · exact ⟨[Event.png_set_palette_to_rgb], by simp, Or.inr rfl⟩
  · exact ⟨[], by simp, Or.inl rfl⟩

/-- A run that returns 0 parsed a supported header, got its block, read every
row, and ends by handing the surface over and releasing the libpng structs and
the file. -/
theorem success_inv (env : Env) (p : Option GGLSurface)
    (h : (res_create_surface env p).result = 0) :
    ∃ (info : PngInfo) (s' : St), ParsesHeader env info ∧ supported info = true ∧
      env.malloc (malloc_arg env.abi env.sizeof_GGLSurface info.width info.height) = true ∧
      read_rows env info.channels info.width (stride_of env.abi info.width) info.height 0
        (rows_start env info header_trace) = (true, s') ∧
      res_create_surface env p =
        exit_label (s'.trace ++ [Event.assign_pSurface]) true true true true 0
          (some (surface_of env info s'.mem)) := by
  rcases res_create_surface_cases env p with ⟨-, e⟩ | ⟨_, -, -, e⟩ | ⟨_, -, -, -, e⟩ |
    ⟨_, -, -, -, e⟩ | ⟨_, -, -, -, -, e⟩ | ⟨_, -, -, -, -, -, e⟩ | ⟨info, hp, e⟩
  · rw [e, exit_label_result] at h; exact absurd h (by decide)
  · rw [e, exit_label_result] at h; exact absurd h (by decide)
  · rw [e, exit_label_result] at h; exact absurd h (by decide)
  · rw [e, exit_label_result] at h; exact absurd h (by decide)
  · rw [e, exit_label_result] at h; exact absurd h (by decide)
  · rw [e, exit_label_result] at h; exact absurd h (by decide)
  · rcases decode_info_cases env info p header_trace with ⟨-, e'⟩ | ⟨-, -, e'⟩ |
      ⟨-, -, _, -, e'⟩ | ⟨hs, hm, s', hr, e'⟩
    · rw [e, e'] at h; exact absurd (show (-7 : Int) = 0 from h) (by decide)
    · rw [e, e', exit_label_result] at h; exact absurd h (by decide)
    · rw [e, e', exit_label_result] at h; exact absurd h (by decide)
    · exact ⟨info, s', hp, hs, hm, hr, by rw [e, e']⟩

theorem failure_exit (t : List Event) (fp a b sf : Bool) (r : Int) (p : Option GGLSurface)
    (h1 : r < 0) (h2 : -8 ≤ r) (ht : Event.assign_pSurface ∉ t) :
    (exit_label t fp a b sf r p).result < 0 ∧ -8 ≤ (exit_label t fp a b sf r p).result ∧
    (exit_label t fp a b sf r p).pSurface = p ∧
    Event.assign_pSurface ∉ (exit_label t fp a b sf r p).trace := by
  refine ⟨h1, h2, rfl, ?_⟩
  rw [exit_label_trace]
  intro hmem
  simp only [List.mem_append, List.mem_cons] at hmem
  rcases hmem with hmem | hmem | hmem | hmem
  · exact ht hmem
  · exact absurd hmem (by simp)
  · cases fp <;> simp at hmem
  · cases (decide (r < 0) && sf) <;> simp at hmem

/-- A run that does not return 0 returns one of the codes -1 .. -8, leaves
`*pSurface` alone and never reaches the assignment of line 169. -/
theorem failure_inv (env : Env) (p : Option GGLSurface)
    (h : (res_create_surface env p).result ≠ 0) :
    (res_create_surface env p).result < 0 ∧ -8 ≤ (res_create_surface env p).result ∧
    (res_create_surface env p).pSurface = p ∧
    Event.assign_pSurface ∉ (res_create_surface env p).trace := by
  rcases res_create_surface_cases env p with ⟨-, e⟩ | ⟨_, -, -, e⟩ | ⟨_, -, -, -, e⟩ |
    ⟨_, -, -, -, e⟩ | ⟨_, -, -, -, -, e⟩ | ⟨_, -, -, -, -, -, e⟩ | ⟨info, hp, e⟩
  · rw [e]; exact failure_exit _ _ _ _ _ _ _ (by decide) (by decide) (by decide)
  · rw [e]; exact failure_exit _ _ _ _ _ _ _ (by decide) (by decide) (by decide)
  · rw [e]; exact failure_exit _ _ _ _ _ _ _ (by decide) (by decide) (by decide)
  · rw [e]; exact failure_exit _ _ _ _ _ _ _ (by decide) (by decide) (by decide)
  · rw [e]; exact failure_exit _ _ _ _ _ _ _ (by decide) (by decide) (by decide)
  · rw [e]; exact failure_exit _ _ _ _ _ _ _ (by decide) (by decide) (by decide)
  · rcases decode_info_cases env info p header_trace with ⟨-, e'⟩ | ⟨-, -, e'⟩ |
      ⟨-, -, s, hr, e'⟩ | ⟨-, -, _, -, e'⟩
    · rw [e, e']
      exact ⟨show (-7 : Int) < 0 by decide, show (-8 : Int) ≤ -7 by decide, rfl,
        show Event.assign_pSurface ∉ header_trace by decide⟩
    · rw [e, e']; exact failure_exit _ _ _ _ _ _ _ (by decide) (by decide) (by decide)
    · rw [e, e']
      refine failure_exit _ _ _ _ _ _ _ (by decide) (by decide) ?_
      obtain ⟨ev, hev, hrow, -⟩ := read_rows_rowEvents env info.channels info.width
        (stride_of env.abi info.width) info.height 0 (rows_start env info header_trace)
      rw [hr] at hev
      change s.trace = _ at hev
      obtain ⟨tl, htl, htl'⟩ := rows_start_trace env info header_trace
      rw [hev, htl]
      intro hmem
      simp only [List.mem_append, List.mem_cons] at hmem
      rcases hmem with (hmem | hmem | hmem) | hmem
      · exact absurd hmem (by decide)
      · exact absurd hmem (by simp)
      · rcases htl' with h0 | h0 <;> subst h0 <;> simp at hmem
      · exact hrow _ hmem
    · rw [e, e', exit_label_result] at h; exact absurd rfl h

/-- Once the header is parsed, the result is -7 exactly when the test of lines
93-96 fails. -/
theorem unsupported_aux (env : Env) (info : PngInfo) (p : Option GGLSurface)
    (h : ParsesHeader env info) :
    (res_create_surface env p).result = -7 ↔
      ¬ (info.bit_depth = 8 ∧
        ((info.channels = 3 ∧ info.color_type = PNG_COLOR_TYPE_RGB) ∨
         (info.channels = 4 ∧ info.color_type = PNG_COLOR_TYPE_RGBA) ∨
         (info.channels = 1 ∧ info.color_type = PNG_COLOR_TYPE_PALETTE))) := by
  rw [res_create_surface_of_parsesHeader h, ← supported_iff]
  rcases decode_info_cases env info p header_trace with ⟨hs, e⟩ | ⟨hs, -, e⟩ |
    ⟨hs, -, _, -, e⟩ | ⟨hs, -, _, -, e⟩
  · rw [e, hs]
    exact ⟨fun _ => by decide, fun _ => rfl⟩
  · rw [e, hs, exit_label_result]
    exact ⟨fun h => absurd h (by decide), fun h => absurd rfl h⟩
  · rw [e, hs, exit_label_result]
    exact ⟨fun h => absurd h (by decide), fun h => absurd rfl h⟩
  · rw [e, hs, exit_label_result]
    exact ⟨fun h => absurd h (by decide), fun h => absurd rfl h⟩

theorem count_rowEvents (ev : List Event)
    (h : ∀ e ∈ ev, RowEvent e ∨ e = Event.assign_pSurface) (a : Event)
    (ha : ¬ RowEvent a) (ha' : a ≠ Event.assign_pSurface) : ev.count a = 0 := by
  rw [List.count_eq_zero]
  intro hmem
  rcases h a hmem with h1 | h1
  · exact ha h1
  · exact ha' h1

theorem released_after_rows (env : Env) (info : PngInfo) (ev tl : List Event)
    (hev : ∀ e ∈ ev, RowEvent e ∨ e = Event.assign_pSurface) :
    Released ((rows_start env info header_trace).trace ++ ev ++
      (Event.png_destroy_read_struct true true :: Event.fclose :: tl)) ↔
    Released (header_trace ++ (Event.png_destroy_read_struct true true :: Event.fclose :: tl)) := by
  obtain ⟨tl', htl, htl'⟩ := rows_start_trace env info header_trace
  have c1 := count_rowEvents ev hev Event.fclose (fun h => h) (by simp)
  have c2 := count_rowEvents ev hev Event.fopen (fun h => h) (by simp)
  have c3 := count_rowEvents ev hev (Event.png_destroy_read_struct true true) (fun h => h) (by simp)
  have c4 := count_rowEvents ev hev (Event.png_destroy_read_struct true false) (fun h => h) (by simp)
  have c5 := count_rowEvents ev hev (Event.png_destroy_read_struct false true) (fun h => h) (by simp)
  have c6 := count_rowEvents ev hev Event.png_create_read_struct (fun h => h) (by simp)
  have c7 := count_rowEvents ev hev Event.png_create_info_struct (fun h => h) (by simp)
  rw [htl]
  rcases htl' with h0 | h0 <;> subst h0 <;>
    simp [Released, List.count_append, List.count_cons, c1, c2, c3, c4, c5, c6, c7]

/-- Every run that does not return -7 closes the file it opened and hands
the libpng structs it created to `png_destroy_read_struct`, each once. -/
theorem released_unless_unsupported (env : Env) (p : Option GGLSurface)
    (h : (res_create_surface env p).result ≠ -7) :
    Released (res_create_surface env p).trace := by
  rcases res_create_surface_cases env p with ⟨-, e⟩ | ⟨_, -, -, e⟩ | ⟨_, -, -, -, e⟩ |
    ⟨_, -, -, -, e⟩ | ⟨_, -, -, -, -, e⟩ | ⟨_, -, -, -, -, -, e⟩ | ⟨info, hp, e⟩
  · rw [e, exit_label_trace]; decide
  · rw [e, exit_label_trace]; decide
  · rw [e, exit_label_trace]; decide
  · rw [e, exit_label_trace]; decide
  · rw [e, exit_label_trace]; decide
  · rw [e, exit_label_trace]; decide
  · rcases decode_info_cases env info p header_trace with ⟨-, e'⟩ | ⟨-, -, e'⟩ |
      ⟨-, -, s, hr, e'⟩ | ⟨-, -, s, hr, e'⟩
    · rw [e, e'] at h; exact absurd rfl h
    · rw [e, e', exit_label_trace]; decide
    · obtain ⟨ev, hev, hrow, -⟩ := read_rows_rowEvents env info.channels info.width
        (stride_of env.abi info.width) info.height 0 (rows_start env info header_trace)
      rw [hr] at hev
      change s.trace = _ at hev
      rw [e, e', exit_label_trace, hev]
      have := (released_after_rows env info ev [Event.free]
        (fun e he => Or.inl (hrow e he))).mpr (by decide)
      simpa using this
    · obtain ⟨ev, hev, hrow, -⟩ := read_rows_rowEvents env info.channels info.width
        (stride_of env.abi info.width) info.height 0 (rows_start env info header_trace)
      rw [hr] at hev
      change s.trace = _ at hev
      rw [e, e', exit_label_trace, hev]
      have := (released_after_rows env info (ev ++ [Event.assign_pSurface]) []
        (fun e he => by
          rcases List.mem_append.mp he with h | h
          · exact Or.inl (hrow e h)
          · exact Or.inr (List.mem_singleton.mp h))).mpr (by decide)
      simpa using this

/-- The trace at the end of the row loop: the header events, the `malloc`,
and then only row events; in particular no `free`. -/
theorem rows_trace_shape (env : Env) (info : PngInfo) :
    ∃ (tl ev : List Event),
      (read_rows env info.channels info.width (stride_of env.abi info.width) info.height 0
        (rows_start env info header_trace)).2.trace =
        header_trace ++
          Event.malloc (malloc_arg env.abi env.sizeof_GGLSurface info.width info.height) ::
            (tl ++ ev) ∧
      (tl = [] ∨ tl = [Event.png_set_palette_to_rgb]) ∧ (∀ e ∈ ev, RowEvent e) ∧
      Event.free ∉ header_trace ++
          Event.malloc (malloc_arg env.abi env.sizeof_GGLSurface info.width info.height) ::
            (tl ++ ev) := by
  obtain ⟨ev, hev, hrow, -⟩ := read_rows_rowEvents env info.channels info.width
    (stride_of env.abi info.width) info.height 0 (rows_start env info header_trace)
  obtain ⟨tl, htl, htl'⟩ := rows_start_trace env info header_trace
  refine ⟨tl, ev, ?_, htl', hrow, ?_⟩
  · rw [hev, htl]; simp
  · intro hmem
    simp only [header_trace, List.mem_append, List.mem_cons] at hmem
    rcases hmem with (hmem | hmem | hmem | hmem) | hmem | hmem | hmem
    · exact absurd hmem (by decide)
    · exact absurd hmem (by decide)
    · exact absurd hmem (by decide)
    · exact absurd hmem (List.not_mem_nil _)
    · exact absurd hmem (by simp)
    · rcases htl' with h0 | h0 <;> subst h0 <;> simp at hmem
    · exact hrow _ hmem

theorem not_rowEvent_rows_start (env : Env) (info : PngInfo) :
    ∀ e ∈ (rows_start env info header_trace).trace, ¬ RowEvent e := by
  obtain ⟨tl, htl, htl'⟩ := rows_start_trace env info header_trace
  intro e he
  rw [htl] at he
  simp only [header_trace, List.mem_append, List.mem_cons] at he
  rcases he with (he | he | he | he) | he | he
  · subst he; exact fun h => h
  · subst he; exact fun h => h
  · subst he; exact fun h => h
  · exact absurd he (List.not_mem_nil e)
  · subst he; exact fun h => h
  · rcases htl' with h0 | h0 <;> subst h0
    · exact absurd he (List.not_mem_nil e)
    · rw [List.mem_singleton] at he
      subst he; exact fun h => h

theorem rowEvent_of_isAccess {e : Event} (h : IsAccess e) : RowEvent e := by
  cases e <;> first | exact h | trivial

/-- An event of a run that returned 0 is an event of the row loop unless it is
one of the calls before and after the loop, none of which is a row event. -/
theorem success_trace_mem (env : Env) (info : PngInfo) (p : Option GGLSurface) (s' : St)
    (ev : List Event)
    (e : res_create_surface env p =
      exit_label (s'.trace ++ [Event.assign_pSurface]) true true true true 0
        (some (surface_of env info s'.mem)))
    (hev : s'.trace = (rows_start env info header_trace).trace ++ ev)
    (x : Event) (hx : x ∈ (res_create_surface env p).trace) : x ∈ ev ∨ ¬ RowEvent x := by
  rw [e, exit_label_trace, hev] at hx
  simp only [List.mem_append, List.mem_cons, List.mem_singleton] at hx
  rcases hx with ((hx | hx) | hx | hx) | hx | hx
  · exact Or.inr (not_rowEvent_rows_start env info x hx)
  · exact Or.inl hx
  · subst hx; exact Or.inr (fun h => h)
  · exact absurd hx (List.not_mem_nil x)
  · subst hx; exact Or.inr (fun h => h)
  · simp at hx
    subst hx; exact Or.inr (fun h => h)

theorem accessIn_of_not_rowEvent {lo hi : Int} {e : Event} (h : ¬ RowEvent e) :
    AccessIn lo hi e := by
  cases e <;> first | trivial | exact absurd trivial h

theorem accessIn_exit_label (lo hi : Int) (t : List Event) (fp a b sf : Bool) (r : Int)
    (p : Option GGLSurface) (ht : ∀ e ∈ t, AccessIn lo hi e) :
    ∀ e ∈ (exit_label t fp a b sf r p).trace, AccessIn lo hi e := by
  intro e he
  rw [exit_label_trace] at he
  simp only [List.mem_append, List.mem_cons] at he
  rcases he with he | he | he | he
  · exact ht e he
  · subst he; trivial
  · cases fp <;> simp at he
    subst he; trivial
  · by_cases hc : (decide (r < 0) && sf) = true
    · rw [if_pos hc, List.mem_singleton] at he
      subst he; trivial
    · rw [if_neg hc] at he
      exact absurd he (List.not_mem_nil e)

/-- With `4 * width` in `int` range, every access of a run touches an offset
in `[0, 4 * width * height)`. -/
theorem accessIn_run (env : Env) (p : Option GGLSurface) (info : PngInfo)
    (hinfo : env.png_read_info = some info) (hw : 4 * info.width ≤ 2147483647) :
    ∀ e ∈ (res_create_surface env p).trace,
      AccessIn 0 ((4 * info.width * info.height : Nat) : Int) e := by
  have hnil : ∀ e ∈ ([] : List Event),
      AccessIn 0 ((4 * info.width * info.height : Nat) : Int) e :=
    fun e he => absurd he (List.not_mem_nil e)
  have hfo : ∀ e ∈ [Event.fopen],
      AccessIn 0 ((4 * info.width * info.height : Nat) : Int) e := by
    intro e he
    rw [List.mem_singleton] at he
    subst he; trivial
  have hhdr : ∀ e ∈ header_trace,
      AccessIn 0 ((4 * info.width * info.height : Nat) : Int) e := by
    intro e he
    simp only [header_trace, List.mem_cons] at he
    rcases he with he | he | he | he
    · subst he; trivial
    · subst he; trivial
    · subst he; trivial
    · exact absurd he (List.not_mem_nil e)
  rcases res_create_surface_cases env p with ⟨-, e⟩ | ⟨_, -, -, e⟩ | ⟨_, -, -, -, e⟩ |
    ⟨_, -, -, -, e⟩ | ⟨_, -, -, -, -, e⟩ | ⟨_, -, -, -, -, -, e⟩ | ⟨info', hp, e⟩
  · rw [e]; exact accessIn_exit_label _ _ _ _ _ _ _ _ _ hnil
  · rw [e]; exact accessIn_exit_label _ _ _ _ _ _ _ _ _ hfo
  · rw [e]; exact accessIn_exit_label _ _ _ _ _ _ _ _ _ hfo
  · rw [e]; exact accessIn_exit_label _ _ _ _ _ _ _ _ _ hfo
  · rw [e]
    refine accessIn_exit_label _ _ _ _ _ _ _ _ _ (fun x hx => ?_)
    simp only [List.mem_cons] at hx
    rcases hx with hx | hx | hx
    · subst hx; trivial
    · subst hx; trivial
    · exact absurd hx (List.not_mem_nil x)
  · rw [e]; exact accessIn_exit_label _ _ _ _ _ _ _ _ _ hhdr
  · have hi : info' = info := by
      have := hp.2.2.2
      rw [hinfo] at this
      exact (Option.some.inj this).symm
    subst hi
    obtain ⟨ev, hev, hacc⟩ := read_rows_accessIn env info'.channels info'.width hw info'.height 0
      (rows_start env info' header_trace)
    have hrows : ∀ x ∈ (read_rows env info'.channels info'.width (stride_of env.abi info'.width)
        info'.height 0 (rows_start env info' header_trace)).2.trace,
        AccessIn 0 ((4 * info'.width * info'.height : Nat) : Int) x := by
      intro x hx
      rw [hev] at hx
      rcases List.mem_append.mp hx with hx | hx
      · exact accessIn_of_not_rowEvent (not_rowEvent_rows_start env info' x hx)
      · obtain ⟨y', -, -, -, hb⟩ := hacc x hx
        rw [Nat.zero_add] at hb
        exact hb
    rcases decode_info_cases env info' p header_trace with ⟨-, e'⟩ | ⟨-, -, e'⟩ |
      ⟨-, -, s, hr, e'⟩ | ⟨-, -, s, hr, e'⟩
    · rw [e, e']; exact hhdr
    · rw [e, e']; exact accessIn_exit_label _ _ _ _ _ _ _ _ _ hhdr
    · rw [hr] at hrows
      rw [e, e']; exact accessIn_exit_label _ _ _ _ _ _ _ _ _ hrows
    · rw [hr] at hrows
      rw [e, e']
      refine accessIn_exit_label _ _ _ _ _ _ _ _ _ (fun x hx => ?_)
      rcases List.mem_append.mp hx with hx | hx
      · exact hrows x hx
      · rw [List.mem_singleton] at hx
        subst hx; trivial

/-! ## The concrete inputs parse -/

theorem parsesHeader_env_rgba (bgra : Bool) : ParsesHeader (env_rgba bgra) info_rgba :=
  ⟨⟨png_file, rfl, by decide⟩, rfl, rfl, rfl⟩

theorem parsesHeader_env_depth16 : ParsesHeader env_depth16 info_depth16 :=
  ⟨⟨png_file, rfl, by decide⟩, rfl, rfl, rfl⟩


theorem parsesHeader_env_2x2_fault : ParsesHeader env_2x2_fault info_2x2 :=
  ⟨⟨png_file, rfl, by decide⟩, rfl, rfl, rfl⟩

theorem parsesHeader_env_w0 : ParsesHeader env_w0 info_w0 :=
  ⟨⟨png_file, rfl, by decide⟩, rfl, rfl, rfl⟩

theorem parsesHeader_env_tall : ParsesHeader env_tall info_tall :=
  ⟨⟨png_file, rfl, by decide⟩, rfl, rfl, rfl⟩

theorem storeRow_covered (m1 m2 : Int → Byte) (p : Int) (row : List Byte) (i : Int)
    (h1 : p ≤ i) (h2 : i < p + (row.length : Int)) :
    storeRow m1 p row i = storeRow m2 p row i := by
  have hin : p ≤ i ∧ i < p + (row.length : Int) := ⟨h1, h2⟩
  simp only [storeRow, if_pos hin]

/-- For a 3-channel row of `3 * w` bytes and for a 4-channel row of `4 * w`
bytes, the normalised row does not depend on what memory held before. -/
theorem norm_copy_storeRow_indep (bgra : Bool) (ch : Int) (m1 m2 : Int → Byte) (p : Int)
    (w : Nat) (row : List Byte)
    (hlen : (ch = 3 ∧ row.length = 3 * w) ∨ (ch = 4 ∧ row.length = 4 * w))
    (i : Int) (h1 : p ≤ i) (h2 : i < p + 4 * (w : Int)) :
    norm_copy bgra ch (storeRow m1 p row) p w i = norm_copy bgra ch (storeRow m2 p row) p w i := by
  have hin : p ≤ i ∧ i < p + 4 * (w : Int) := ⟨h1, h2⟩
  rcases hlen with ⟨hc, hl⟩ | ⟨hc, hl⟩
  · subst hc
    rw [norm_copy_three, norm_copy_three]
    simp only [expand_copy, if_pos hin]
    split_ifs
    · rfl
    · exact storeRow_covered _ _ _ _ _ (by omega) (by omega)
    · exact storeRow_covered _ _ _ _ _ (by omega) (by omega)
  · subst hc
    exact norm_copy_local bgra 4 _ _ p w
      (fun j hj1 hj2 => storeRow_covered _ _ _ _ _ hj1 (by omega)) i h1 h2

/-- Two runs on the same 3-channel or 4-channel image, whose rows libpng
delivers in full, give the same pixel bytes at every offset below
`4 * width * height`, whatever the fresh blocks hold. -/
theorem pixels_independent_of_fresh_block (env1 env2 : Env) (info : PngInfo)
    (p1 p2 : Option GGLSurface) (rows : Nat → List Byte)
    (habi : env1.abi = env2.abi) (hbgra : env1.PIXELS_BGRA = env2.PIXELS_BGRA)
    (hhdr1 : ParsesHeader env1 info) (hhdr2 : ParsesHeader env2 info)
    (hs : supported info = true)
    (hm1 : env1.malloc (malloc_arg env1.abi env1.sizeof_GGLSurface info.width info.height) = true)
    (hm2 : env2.malloc (malloc_arg env2.abi env2.sizeof_GGLSurface info.width info.height) = true)
    (hrows1 : ∀ y : Nat, y < info.height → env1.png_read_row y = some (rows y))
    (hrows2 : ∀ y : Nat, y < info.height → env2.png_read_row y = some (rows y))
    (hlen : ∀ y : Nat, y < info.height →
      (info.channels = 3 ∧ (rows y).length = 3 * info.width) ∨
      (info.channels = 4 ∧ (rows y).length = 4 * info.width))
    (hw : 4 * info.width ≤ 2147483647)
    (hsz : 4 * info.width * info.height < 2 ^ env1.abi.bits) :
    ∃ surf1 surf2 : GGLSurface,
      (res_create_surface env1 p1).result = 0 ∧ (res_create_surface env2 p2).result = 0 ∧
      (res_create_surface env1 p1).pSurface = some surf1 ∧
      (res_create_surface env2 p2).pSurface = some surf2 ∧
      surf1.width = surf2.width ∧ surf1.height = surf2.height ∧
      surf1.stride = surf2.stride ∧ surf1.format = surf2.format ∧
      ∀ i : Nat, i < 4 * info.width * info.height → surf1.data i = surf2.data i := by
  have hl : ∀ y : Nat, y < info.height → (rows y).length ≤ 4 * info.width := by
    intro y hy
    rcases hlen y hy with ⟨-, h⟩ | ⟨-, h⟩ <;> omega
  obtain ⟨s1, hs1, hin1, -⟩ := read_rows_mem env1 info.channels info.width rows hw info.height 0
    (rows_start env1 info header_trace)
    (by rw [Nat.zero_add, Nat.mul_comm]; exact hsz)
    (fun y _ h2 => ⟨hrows1 y (by omega), hl y (by omega)⟩)
  obtain ⟨s2, hs2, hin2, -⟩ := read_rows_mem env2 info.channels info.width rows hw info.height 0
    (rows_start env2 info header_trace)
    (by rw [Nat.zero_add, Nat.mul_comm, ← habi]; exact hsz)
    (fun y _ h2 => ⟨hrows2 y (by omega), hl y (by omega)⟩)
  have e1 := decode_info_success env1 info p1 header_trace s1 hs hm1 hs1
  have e2 := decode_info_success env2 info p2 header_trace s2 hs hm2 hs2
  rw [← res_create_surface_of_parsesHeader hhdr1] at e1
  rw [← res_create_surface_of_parsesHeader hhdr2] at e2
  refine ⟨surface_of env1 info s1.mem, surface_of env2 info s2.mem, by rw [e1]; rfl,
    by rw [e2]; rfl, by rw [e1]; rfl, by rw [e2]; rfl, rfl, rfl, rfl, ?_, ?_⟩
  · show format_of env1.PIXELS_BGRA info.channels = format_of env2.PIXELS_BGRA info.channels
    rw [hbgra]
  · intro i hi
    show s1.mem i = s2.mem i
    have hwpos : 0 < 4 * info.width := by
      rcases Nat.eq_zero_or_pos (4 * info.width) with h0 | h0
      · rw [h0, Nat.zero_mul] at hi; exact absurd hi (Nat.not_lt_zero _)
      · exact h0
    have hy : i / (4 * info.width) < info.height := (Nat.div_lt_iff_lt_mul hwpos).mpr (by
      rw [Nat.mul_comm]; exact hi)
    have hj : i % (4 * info.width) < 4 * info.width := Nat.mod_lt _ hwpos
    have hi' : (i : Int) = ((4 * info.width * (i / (4 * info.width)) : Nat) : Int)
        + ((i % (4 * info.width) : Nat) : Int) := by
      have := Nat.div_add_mod i (4 * info.width)
      omega
    rw [hi', hin1 _ (Nat.zero_le _) (by omega) _ hj, hin2 _ (Nat.zero_le _) (by omega) _ hj,
      hbgra]
    exact norm_copy_storeRow_indep _ _ _ _ _ _ _ (hlen _ hy) _ (by omega) (by omega)

theorem parsesHeader_env_rgb (fill : Byte) : ParsesHeader (env_rgb fill) info_rgb :=
  ⟨⟨png_file, rfl, by decide⟩, rfl, rfl, rfl⟩

/-- The 2x1 3-channel image decodes to the same eight bytes whether the fresh
block held 0 or 9. -/
theorem pixels_independent_of_fresh_block_example :
    (res_create_surface (env_rgb 0) none).pixels 8
      = (res_create_surface (env_rgb 9) none).pixels 8 ∧
    ∃ surf1 surf2 : GGLSurface,
      (res_create_surface (env_rgb 0) none).result = 0 ∧
      (res_create_surface (env_rgb 9) none).result = 0 ∧
      (res_create_surface (env_rgb 0) none).pSurface = some surf1 ∧
      (res_create_surface (env_rgb 9) none).pSurface = some surf2 ∧
      surf1.width = surf2.width ∧ surf1.height = surf2.height ∧
      surf1.stride = surf2.stride ∧ surf1.format = surf2.format ∧
      ∀ i : Nat, i < 4 * info_rgb.width * info_rgb.height → surf1.data i = surf2.data i :=
  ⟨by decide,
    pixels_independent_of_fresh_block (env_rgb 0) (env_rgb 9) info_rgb none none
      (fun _ => [1, 2, 3, 4, 5, 6]) rfl rfl (parsesHeader_env_rgb 0) (parsesHeader_env_rgb 9)
      (by decide) rfl rfl (fun _ _ => rfl) (fun _ _ => rfl) (fun _ _ => Or.inl ⟨rfl, rfl⟩)
      (by decide) (by decide)⟩

/-! ## C1 -/

/-- C1 (failing input): a 2x1 palette image whose row libpng delivers as the
RGB triples `(1,2,3)`, `(4,5,6)` is not expanded: the surface holds the six
bytes packed, followed by two bytes of the fresh block that are never written
(here 7), and is tagged RGBA_8888; the direct 3-channel image with the same
triples gives `(1,2,3,0xFF)`, `(4,5,6,0xFF)` tagged RGBX_8888. -/
theorem palette_row_not_expanded :
    ((res_create_surface (env_palette 7) none).result = 0 ∧
      (res_create_surface (env_palette 7) none).pixels 8 = [1, 2, 3, 4, 5, 6, 7, 7] ∧
      (res_create_surface (env_palette 7) none).format
        = some GGLPixelFormat.GGL_PIXEL_FORMAT_RGBA_8888) ∧
    ((res_create_surface (env_rgb 7) none).result = 0 ∧
      (res_create_surface (env_rgb 7) none).pixels 8 = [1, 2, 3, 255, 4, 5, 6, 255] ∧
      (res_create_surface (env_rgb 7) none).format
        = some GGLPixelFormat.GGL_PIXEL_FORMAT_RGBX_8888) := by
  decide

/-! ## C2 -/

/-- C2: the in-place, right-to-left loop of the `channels == 3` branch leaves
in bytes `4x .. 4x+3` of the row the original bytes `3x .. 3x+2` followed by
`0xFF` (red and blue exchanged under `PIXELS_BGRA`), for every pixel `x < w`,
whenever `4 * w` fits a signed 32-bit `int`; the resulting memory is the one
the out-of-place expansion of a copy gives, and the loop reads no byte after
having written it. -/
theorem expand_in_place (abi : Abi) (bgra : Bool) (w : Nat) (pRow : Int) (s : St)
    (hw : 4 * w ≤ 2147483647) :
    (∀ x : Nat, x < w →
      (normalise_row abi bgra 3 w pRow s).mem (pRow + 4 * x)
        = s.mem (pRow + 3 * x + (if bgra then 2 else 0)) ∧
      (normalise_row abi bgra 3 w pRow s).mem (pRow + 4 * x + 1) = s.mem (pRow + 3 * x + 1) ∧
      (normalise_row abi bgra 3 w pRow s).mem (pRow + 4 * x + 2)
        = s.mem (pRow + 3 * x + (if bgra then 0 else 2)) ∧
      (normalise_row abi bgra 3 w pRow s).mem (pRow + 4 * x + 3) = 0xff) ∧
    (normalise_row abi bgra 3 w pRow s).mem = expand_copy bgra s.mem pRow w ∧
    ∃ ev : List Event, (normalise_row abi bgra 3 w pRow s).trace = s.trace ++ ev ∧
      ReadsBeforeWrites ev := by
  rw [normalise_row_three abi bgra w pRow s hw]
  obtain ⟨h1, h2⟩ := for_x_expand_mem bgra pRow w hw s
  refine ⟨fun x hx => ?_, ?_, loop_events (expand_events bgra pRow) w, ?_, ?_⟩
  · obtain ⟨a, b, c, d⟩ := h1 x hx
    exact ⟨d, c, b, a⟩
  · exact expand_in_place_aux bgra w pRow s hw
  · exact for_x_trace _ _ w (fun x hx s => expand_body_trace bgra pRow x s (by omega)) s
  · exact readsBeforeWrites_loop_expand bgra pRow w

theorem expand_in_place_witness :
    4 * 2 ≤ 2147483647 ∧
    (List.range 8).map (fun i : Nat => (normalise_row Abi.ilp32 false 3 2 0 row2).mem i)
      = [255, 0, 0, 255, 1, 2, 3, 255] ∧
    (normalise_row Abi.ilp32 false 3 2 0 row2).mem = expand_copy false row2.mem 0 2 :=
  ⟨by decide, by decide, (expand_in_place Abi.ilp32 false 2 0 row2 (by decide)).2.1⟩


/-! ## C3 -/

/-- C4 (failing input): on a well-signed file whose header declares bit depth
16 the function returns -7 straight from line 97: the trace ends with the
creation of the two libpng structs, so the file is never closed and
`png_destroy_read_struct` is never called; the trace does not release what it
acquired. -/
theorem unsupported_format_skips_cleanup :
    (res_create_surface env_depth16 none).result = -7 ∧
    (res_create_surface env_depth16 none).trace
      = [Event.fopen, Event.png_create_read_struct, Event.png_create_info_struct] ∧
    Event.fclose ∉ (res_create_surface env_depth16 none).trace ∧
    (∀ a b : Bool,
      Event.png_destroy_read_struct a b ∉ (res_create_surface env_depth16 none).trace) ∧
    ¬ Released (res_create_surface env_depth16 none).trace := by
  refine ⟨by decide, by decide, by decide, ?_, by decide⟩
  intro a b
  cases a <;> cases b <;> decide

/-! ## C5 -/

/-- C5: once the header is parsed, `res_create_surface` returns -7 exactly
when the header fails the test of lines 93-96 (bit depth 8 and one of:
3 channels with RGB, 4 channels with RGBA, 1 channel with palette); and a run
that returns -7 has not called `malloc`. -/
theorem unsupported_iff (env : Env) (info : PngInfo) (p : Option GGLSurface)
    (h : ParsesHeader env info) :
    ((res_create_surface env p).result = -7 ↔
      ¬ (info.bit_depth = 8 ∧
        ((info.channels = 3 ∧ info.color_type = PNG_COLOR_TYPE_RGB) ∨
         (info.channels = 4 ∧ info.color_type = PNG_COLOR_TYPE_RGBA) ∨
         (info.channels = 1 ∧ info.color_type = PNG_COLOR_TYPE_PALETTE)))) ∧
    ((res_create_surface env p).result = -7 →
      ∀ n : Nat, Event.malloc n ∉ (res_create_surface env p).trace) := by
  refine ⟨unsupported_aux env info p h, fun h7 n => ?_⟩
  have hs : supported info ≠ true := fun hs =>
    (unsupported_aux env info p h).mp h7 ((supported_iff info).mp hs)
  rw [res_create_surface_of_parsesHeader h]
  rcases decode_info_cases env info p header_trace with ⟨-, e⟩ | ⟨hs', -, -⟩ |
    ⟨hs', -, -, -, -⟩ | ⟨hs', -, -, -, -⟩
  · rw [e]
    show Event.malloc n ∉ header_trace
    simp [header_trace]
  · exact absurd hs' hs
  · exact absurd hs' hs
  · exact absurd hs' hs

theorem unsupported_iff_witness :
    ParsesHeader env_depth16 info_depth16 ∧
    (res_create_surface env_depth16 none).result = -7 ∧
    (∀ n : Nat, Event.malloc n ∉ (res_create_surface env_depth16 none).trace) ∧
    (res_create_surface (env_rgba false) none).result ≠ -7 :=
  ⟨parsesHeader_env_depth16,
    (unsupported_iff env_depth16 info_depth16 none parsesHeader_env_depth16).1.mpr (by decide),
    (unsupported_iff env_depth16 info_depth16 none parsesHeader_env_depth16).2
      ((unsupported_iff env_depth16 info_depth16 none parsesHeader_env_depth16).1.mpr
        (by decide)),
    fun h => (unsupported_iff (env_rgba false) info_rgba none (parsesHeader_env_rgba false)).1.mp h
      (by decide)⟩

/-! ## C6 -/

/-- C6 (counterexample): on a 32-bit build, a 4-channel image of width `2^30`
and height 1 decodes with result 0 while `stride` and `pixelSize` wrap to 0:
no byte is reserved behind the header, against `4 * width * height = 2^32`. -/
theorem reserved_wraps_on_ilp32 :
    (res_create_surface env_wide none).result = 0 ∧
    stride_of env_wide.abi info_wide.width = 0 ∧
    pixelSize_of env_wide.abi info_wide.width info_wide.height = 0 ∧
    (res_create_surface env_wide none).reserved env_wide.sizeof_GGLSurface = some 0 ∧
    4 * info_wide.width * info_wide.height = 4294967296 ∧
    (res_create_surface env_wide none).reserved env_wide.sizeof_GGLSurface
      ≠ some (4 * info_wide.width * info_wide.height) := by
  decide

/-- C6 (amended): for every run that returns 0, the number of bytes reserved
behind the header is the `malloc` argument less `sizeof(GGLSurface)`; it is
exactly `4 * width * height` whenever `sizeof(GGLSurface) + 4 * width * height`
is below `2 ^ bits` for the `size_t` of the build, which on a 64-bit build
holds for all widths and heights up to `2^31 - 1`. -/
theorem reserved_bytes_exact (env : Env) (p : Option GGLSurface)
    (h : (res_create_surface env p).result = 0) :
    ∃ info : PngInfo, env.png_read_info = some info ∧
      (res_create_surface env p).reserved env.sizeof_GGLSurface
        = some (malloc_arg env.abi env.sizeof_GGLSurface info.width info.height
            - env.sizeof_GGLSurface) ∧
      (env.sizeof_GGLSurface + 4 * info.width * info.height < 2 ^ env.abi.bits →
        (res_create_surface env p).reserved env.sizeof_GGLSurface
          = some (4 * info.width * info.height)) ∧
      (env.abi = Abi.lp64 → info.width ≤ 2147483647 → info.height ≤ 2147483647 →
        env.sizeof_GGLSurface ≤ 4294967296 →
        (res_create_surface env p).reserved env.sizeof_GGLSurface
          = some (4 * info.width * info.height)) := by
  obtain ⟨info, s', hp, -, -, -, e⟩ := success_inv env p h
  have hres : (res_create_surface env p).reserved env.sizeof_GGLSurface
      = some (malloc_arg env.abi env.sizeof_GGLSurface info.width info.height
          - env.sizeof_GGLSurface) := by
    rw [e]; rfl
  have hexact : env.sizeof_GGLSurface + 4 * info.width * info.height < 2 ^ env.abi.bits →
      (res_create_surface env p).reserved env.sizeof_GGLSurface
        = some (4 * info.width * info.height) := by
    intro hsz
    rw [hres, malloc_arg_exact _ _ _ _ hsz, Nat.add_sub_cancel_left]
  refine ⟨info, hp.2.2.2, hres, hexact, ?_⟩
  intro habi hw hh hs
  apply hexact
  rw [habi]
  have h1 : info.width * info.height ≤ 2147483647 * 2147483647 := Nat.mul_le_mul hw hh
  have h2 : 4 * info.width * info.height = 4 * (info.width * info.height) := Nat.mul_assoc _ _ _
  simp only [Abi.bits]
  omega

theorem reserved_bytes_exact_witness :
    (res_create_surface env_wide64 none).result = 0 ∧
    (res_create_surface env_wide64 none).reserved env_wide64.sizeof_GGLSurface
      = some 4294967296 ∧
    (res_create_surface (env_rgba false) none).result = 0 ∧
    ∃ info : PngInfo, (env_rgba false).png_read_info = some info ∧
      (res_create_surface (env_rgba false) none).reserved (env_rgba false).sizeof_GGLSurface
        = some (malloc_arg (env_rgba false).abi (env_rgba false).sizeof_GGLSurface info.width
            info.height - (env_rgba false).sizeof_GGLSurface) ∧
      ((env_rgba false).sizeof_GGLSurface + 4 * info.width * info.height
          < 2 ^ (env_rgba false).abi.bits →
        (res_create_surface (env_rgba false) none).reserved (env_rgba false).sizeof_GGLSurface
          = some (4 * info.width * info.height)) ∧
      ((env_rgba false).abi = Abi.lp64 → info.width ≤ 2147483647 → info.height ≤ 2147483647 →
        (env_rgba false).sizeof_GGLSurface ≤ 4294967296 →
        (res_create_surface (env_rgba false) none).reserved (env_rgba false).sizeof_GGLSurface
          = some (4 * info.width * info.height)) :=
  ⟨by decide, by decide, by decide, reserved_bytes_exact (env_rgba false) none (by decide)⟩

/-! ## C7 -/

/-- C7 (failing input): two runs on the same 2x1 palette image, with the same
header and the same decoded row, that differ only in what the fresh block
holds (0 or 9 in every byte) return the same header fields but different pixel
bytes: bytes 6 and 7 of the row are never written. -/
theorem palette_depends_on_fresh_block :
    (env_palette 0).png_read_info = (env_palette 9).png_read_info ∧
    (∀ y : Nat, (env_palette 0).png_read_row y = (env_palette 9).png_read_row y) ∧
    (res_create_surface (env_palette 0) none).result = 0 ∧
    (res_create_surface (env_palette 9) none).result = 0 ∧
    (res_create_surface (env_palette 0) none).format
      = (res_create_surface (env_palette 9) none).format ∧
    (res_create_surface (env_palette 0) none).pixels 8 = [1, 2, 3, 4, 5, 6, 0, 0] ∧
    (res_create_surface (env_palette 9) none).pixels 8 = [1, 2, 3, 4, 5, 6, 9, 9] ∧
    (res_create_surface (env_palette 0) none).pixels 8
      ≠ (res_create_surface (env_palette 9) none).pixels 8 :=
  ⟨rfl, fun _ => rfl, by decide, by decide, by decide, by decide, by decide, by decide⟩

/-! ## C8 -/

/-- C8: a run that returns a negative code leaves `*pSurface` as it was and
never executes the assignment of line 169; a run returns 0 or a negative code;
and a run that returns 0 has `*pSurface` set to the surface whose pixel memory
is the one the row loop left, the assignment happening once, after the events
of all rows (which include `png_read_row` for every row of the image) and
before the release of the libpng structs and of the file. -/
theorem handle_written_on_success_only (env : Env) (p : Option GGLSurface) :
    ((res_create_surface env p).result < 0 →
      (res_create_surface env p).pSurface = p ∧
      Event.assign_pSurface ∉ (res_create_surface env p).trace) ∧
    ((res_create_surface env p).result = 0 ∨ (res_create_surface env p).result < 0) ∧
    ((res_create_surface env p).result = 0 →
      ∃ (info : PngInfo) (s' : St) (pre ev : List Event),
        env.png_read_info = some info ∧
        read_rows env info.channels info.width (stride_of env.abi info.width) info.height 0
          (rows_start env info header_trace) = (true, s') ∧
        (res_create_surface env p).pSurface = some (surface_of env info s'.mem) ∧
        (res_create_surface env p).trace =
          pre ++ ev ++ [Event.assign_pSurface, Event.png_destroy_read_struct true true,
            Event.fclose] ∧
        Event.assign_pSurface ∉ pre ++ ev ∧
        (∀ e ∈ pre, ¬ RowEvent e) ∧ (∀ e ∈ ev, RowEvent e) ∧
        ∀ y : Nat, y < info.height → Event.png_read_row y ∈ ev) := by
  refine ⟨fun h => ?_, ?_, fun h => ?_⟩
  · obtain ⟨-, -, h3, h4⟩ := failure_inv env p (by omega)
    exact ⟨h3, h4⟩
  · by_cases h0 : (res_create_surface env p).result = 0
    · exact Or.inl h0
    · exact Or.inr (failure_inv env p h0).1
  · obtain ⟨info, s', hp, -, -, hr, e⟩ := success_inv env p h
    obtain ⟨ev, hev, hrow, hall⟩ := read_rows_rowEvents env info.channels info.width
      (stride_of env.abi info.width) info.height 0 (rows_start env info header_trace)
    rw [hr] at hev hall
    change s'.trace = _ at hev
    obtain ⟨tl, htl, htl'⟩ := rows_start_trace env info header_trace
    have hpre : ∀ e ∈ (rows_start env info header_trace).trace, ¬ RowEvent e ∧
        e ≠ Event.assign_pSurface := by
      intro e he
      rw [htl] at he
      simp only [header_trace, List.mem_append, List.mem_cons] at he
      rcases he with (he | he | he | he) | he | he
      · subst he; exact ⟨fun h => h, by decide⟩
      · subst he; exact ⟨fun h => h, by decide⟩
      · subst he; exact ⟨fun h => h, by decide⟩
      · exact absurd he (List.not_mem_nil e)
      · subst he; exact ⟨fun h => h, by simp⟩
      · rcases htl' with h0 | h0 <;> subst h0
        · exact absurd he (List.not_mem_nil e)
        · rw [List.mem_singleton] at he
          subst he; exact ⟨fun h => h, by decide⟩
    refine ⟨info, s', (rows_start env info header_trace).trace, ev, hp.2.2.2, hr, ?_, ?_, ?_,
      fun e he => (hpre e he).1, hrow, fun y hy => hall rfl y (Nat.zero_le y) (by omega)⟩
    · rw [e]; rfl
    · rw [e, exit_label_trace, hev]
      simp
    · intro hmem
      rcases List.mem_append.mp hmem with hmem | hmem
      · exact (hpre _ hmem).2 rfl
      · exact hrow _ hmem

/-! ## C9 -/

/-- C9: a file that cannot be opened gives -1; an opened file of fewer than 8
bytes gives -2; an opened file of at least 8 bytes whose first 8 bytes are not
the PNG signature gives -3, whatever follows them; a well-signed file whose
header is parsed and declares bit depth 16 gives -7; and every run returns 0
or one of the negative codes -1 .. -8. -/
theorem early_failure_codes (env : Env) (p : Option GGLSurface) :
    (env.fopen = none → (res_create_surface env p).result = -1) ∧
    (∀ file : List Byte, env.fopen = some file → file.length < 8 →
      (res_create_surface env p).result = -2) ∧
    (∀ file : List Byte, env.fopen = some file → 8 ≤ file.length →
      file.take 8 ≠ png_signature → (res_create_surface env p).result = -3) ∧
    (∀ info : PngInfo, ParsesHeader env info → info.bit_depth = 16 →
      (res_create_surface env p).result = -7) ∧
    ((res_create_surface env p).result = 0 ∨
      ((res_create_surface env p).result < 0 ∧ -8 ≤ (res_create_surface env p).result)) := by
  refine ⟨fun h => ?_, fun file h1 h2 => ?_, fun file h1 h2 h3 => ?_, fun info hp hb => ?_, ?_⟩
  · simp [res_create_surface, h, exit_label_result]
  · have : min 8 file.length ≠ 8 := by omega
    simp [res_create_surface, h1, this, exit_label_result]
  · have : min 8 file.length = 8 := by omega
    simp [res_create_surface, h1, this, png_sig_cmp, h3, exit_label_result]
  · refine (unsupported_aux env info p hp).mpr ?_
    rintro ⟨h8, -⟩
    rw [hb] at h8
    exact absurd h8 (by decide)
  · by_cases h0 : (res_create_surface env p).result = 0
    · exact Or.inl h0
    · exact Or.inr ⟨(failure_inv env p h0).1, (failure_inv env p h0).2.1⟩

theorem early_failure_codes_witness :
    (res_create_surface { env_base with fopen := none } none).result = -1 ∧
    (res_create_surface { env_base with fopen := some [137, 80, 78] } none).result = -2 ∧
    (res_create_surface { env_base with fopen := some [137, 80, 78, 71, 13, 10, 26, 11, 0, 0] }
      none).result = -3 ∧
    (res_create_surface env_depth16 none).result = -7 :=
  ⟨(early_failure_codes { env_base with fopen := none } none).1 rfl,
    (early_failure_codes { env_base with fopen := some [137, 80, 78] } none).2.1 _ rfl
      (by decide),
    (early_failure_codes { env_base with fopen := some [137, 80, 78, 71, 13, 10, 26, 11, 0, 0] }
      none).2.2.1 _ rfl (by decide) (by decide),
    (early_failure_codes env_depth16 none).2.2.2.1 info_depth16 parsesHeader_env_depth16 rfl⟩

/-! ## C10 -/

/-- C10: for every run that returns 0 the surface handed to the caller has
`width` and `height` equal to the declared dimensions and `stride` equal to
the width in pixels; its `format` depends on the channel count and on
`PIXELS_BGRA` only: RGBX_8888 for 3 channels, and for 4 channels or a palette
image RGBA_8888 without `PIXELS_BGRA` and BGRA_8888 with it. -/
theorem header_fields (env : Env) (p : Option GGLSurface)
    (h : (res_create_surface env p).result = 0) :
    ∃ (info : PngInfo) (surf : GGLSurface),
      env.png_read_info = some info ∧
      (res_create_surface env p).pSurface = some surf ∧
      surf.width = info.width ∧ surf.height = info.height ∧ surf.stride = info.width ∧
      surf.version = env.sizeof_GGLSurface ∧
      surf.format = format_of env.PIXELS_BGRA info.channels ∧
      (info.channels = 3 ∨ info.channels = 4 ∨
        (info.channels = 1 ∧ info.color_type = PNG_COLOR_TYPE_PALETTE)) ∧
      (info.channels = 3 → surf.format = GGLPixelFormat.GGL_PIXEL_FORMAT_RGBX_8888) ∧
      (info.channels = 4 ∨ info.color_type = PNG_COLOR_TYPE_PALETTE →
        surf.format = if env.PIXELS_BGRA then GGLPixelFormat.GGL_PIXEL_FORMAT_BGRA_8888
          else GGLPixelFormat.GGL_PIXEL_FORMAT_RGBA_8888) := by
  obtain ⟨info, s', hp, hs, -, -, e⟩ := success_inv env p h
  obtain ⟨-, hfmt⟩ := (supported_iff info).mp hs
  refine ⟨info, surface_of env info s'.mem, hp.2.2.2, by rw [e]; rfl, rfl, rfl, rfl, rfl, rfl,
    ?_, ?_, ?_⟩
  · rcases hfmt with ⟨h3, -⟩ | ⟨h4, -⟩ | ⟨h1, hpal⟩
    · exact Or.inl h3
    · exact Or.inr (Or.inl h4)
    · exact Or.inr (Or.inr ⟨h1, hpal⟩)
  · intro h3
    show format_of env.PIXELS_BGRA info.channels = _
    rw [h3]; rfl
  · intro h4
    have hne : info.channels ≠ 3 := by
      rcases h4 with h4 | hpal
      · rw [h4]; decide
      · rcases hfmt with ⟨-, hc⟩ | ⟨-, hc⟩ | ⟨h1, -⟩
        · rw [hpal] at hc; exact absurd hc (by decide)
        · rw [hpal] at hc; exact absurd hc (by decide)
        · rw [h1]; decide
    show format_of env.PIXELS_BGRA info.channels = _
    unfold format_of
    rw [if_neg hne]

theorem header_fields_witness :
    (res_create_surface (env_palette 0) none).result = 0 ∧
    (res_create_surface (env_palette 0) none).format
      = some GGLPixelFormat.GGL_PIXEL_FORMAT_RGBA_8888 ∧
    (res_create_surface (env_rgba true) none).format
      = some GGLPixelFormat.GGL_PIXEL_FORMAT_BGRA_8888 ∧
    ∃ (info : PngInfo) (surf : GGLSurface),
      (env_rgb 0).png_read_info = some info ∧
      (res_create_surface (env_rgb 0) none).pSurface = some surf ∧
      surf.width = info.width ∧ surf.height = info.height ∧ surf.stride = info.width ∧
      surf.version = (env_rgb 0).sizeof_GGLSurface ∧
      surf.format = format_of (env_rgb 0).PIXELS_BGRA info.channels ∧
      (info.channels = 3 ∨ info.channels = 4 ∨
        (info.channels = 1 ∧ info.color_type = PNG_COLOR_TYPE_PALETTE)) ∧
      (info.channels = 3 → surf.format = GGLPixelFormat.GGL_PIXEL_FORMAT_RGBX_8888) ∧
      (info.channels = 4 ∨ info.color_type = PNG_COLOR_TYPE_PALETTE →
        surf.format = if (env_rgb 0).PIXELS_BGRA then GGLPixelFormat.GGL_PIXEL_FORMAT_BGRA_8888
          else GGLPixelFormat.GGL_PIXEL_FORMAT_RGBA_8888) :=
  ⟨by decide, by decide, by decide, header_fields (env_rgb 0) none (by decide)⟩

/-! ## C11 -/

/-- C12: when libpng raises an error in a row, after the block has been
allocated, `res_create_surface` returns -6 and frees the block once, as the
last thing it does; a run whose trace has a `free` returned -6 and did
allocate a block, so no failure before the allocation releases anything; a
run that returns -8 has neither a successful `malloc` nor a `free`; and a run
that returns 0 does not free the block. -/
theorem surface_freed_on_row_fault (env : Env) (p : Option GGLSurface) :
    (∀ info : PngInfo, ParsesHeader env info → supported info = true →
      env.malloc (malloc_arg env.abi env.sizeof_GGLSurface info.width info.height) = true →
      (∃ y : Nat, y < info.height ∧ env.png_read_row y = none) →
      (res_create_surface env p).result = -6 ∧
      (res_create_surface env p).trace.count Event.free = 1 ∧
      ∃ pre : List Event,
        (res_create_surface env p).trace =
          pre ++ [Event.png_destroy_read_struct true true, Event.fclose, Event.free] ∧
        Event.malloc (malloc_arg env.abi env.sizeof_GGLSurface info.width info.height) ∈ pre ∧
        Event.free ∉ pre) ∧
    (Event.free ∈ (res_create_surface env p).trace →
      (res_create_surface env p).result = -6 ∧
      ∃ n : Nat, Event.malloc n ∈ (res_create_surface env p).trace) ∧
    ((res_create_surface env p).result = -8 →
      Event.free ∉ (res_create_surface env p).trace ∧
      ∀ n : Nat, Event.malloc n ∉ (res_create_surface env p).trace) ∧
    ((res_create_surface env p).result = 0 →
      Event.free ∉ (res_create_surface env p).trace) := by
  have early : ∀ (t : List Event) (fp a b : Bool) (r : Int),
      Event.free ∉ t → (∀ n : Nat, Event.malloc n ∉ t) →
      Event.free ∉ (exit_label t fp a b false r p).trace ∧
      ∀ n : Nat, Event.malloc n ∉ (exit_label t fp a b false r p).trace := by
    intro t fp a b r h1 h2
    rw [exit_label_trace]
    constructor
    · intro hmem
      simp only [Bool.and_false, Bool.false_eq_true, if_false, List.append_nil,
        List.mem_append, List.mem_cons] at hmem
      rcases hmem with hmem | hmem | hmem
      · exact h1 hmem
      · exact absurd hmem (by simp)
      · cases fp <;> simp at hmem
    · intro n hmem
      simp only [Bool.and_false, Bool.false_eq_true, if_false, List.append_nil,
        List.mem_append, List.mem_cons] at hmem
      rcases hmem with hmem | hmem | hmem
      · exact h2 n hmem
      · exact absurd hmem (by simp)
      · cases fp <;> simp at hmem
  have hdr1 : Event.free ∉ header_trace := by decide
  have hdr2 : ∀ n : Nat, Event.malloc n ∉ header_trace := by
    intro n; simp [header_trace]
  refine ⟨?_, ?_, ?_, ?_⟩
  · intro info hp hs hm ⟨y, hy, hnone⟩
    have hflag : (read_rows env info.channels info.width (stride_of env.abi info.width)
        info.height 0 (rows_start env info header_trace)).1 ≠ true := by
      intro h
      exact (read_rows_flag env _ _ _ _ 0 _).mp h y (Nat.zero_le y) (by omega) hnone
    obtain ⟨tl, ev, hshape, -, -, hfree⟩ := rows_trace_shape env info
    rw [res_create_surface_of_parsesHeader hp]
    rcases decode_info_cases env info p header_trace with ⟨hs', -⟩ | ⟨-, hm', -⟩ |
      ⟨-, -, s, hr, e⟩ | ⟨-, -, s, hr, -⟩
    · rw [hs] at hs'; exact absurd hs' (by decide)
    · rw [hm] at hm'; exact absurd hm' (by decide)
    · rw [hr] at hshape
      change s.trace = _ at hshape
      rw [e, exit_label_trace, hshape]
      refine ⟨rfl, ?_, _, rfl, by simp [header_trace], hfree⟩
      rw [List.count_append, List.count_eq_zero.mpr hfree]
      decide
    · rw [hr] at hflag; exact absurd rfl hflag
  · intro hmem
    rcases res_create_surface_cases env p with ⟨-, e⟩ | ⟨_, -, -, e⟩ | ⟨_, -, -, -, e⟩ |
      ⟨_, -, -, -, e⟩ | ⟨_, -, -, -, -, e⟩ | ⟨_, -, -, -, -, -, e⟩ | ⟨info, hp, e⟩
    · rw [e] at hmem; exact absurd hmem (early _ _ _ _ _ (by decide) (by simp)).1
    · rw [e] at hmem; exact absurd hmem (early _ _ _ _ _ (by decide) (by simp)).1
    · rw [e] at hmem; exact absurd hmem (early _ _ _ _ _ (by decide) (by simp)).1
    · rw [e] at hmem; exact absurd hmem (early _ _ _ _ _ (by decide) (by simp)).1
    · rw [e] at hmem; exact absurd hmem (early _ _ _ _ _ (by decide) (by simp)).1
    · rw [e] at hmem; exact absurd hmem (early _ _ _ _ _ hdr1 hdr2).1
    · obtain ⟨tl, ev, hshape, -, -, hfree⟩ := rows_trace_shape env info
      rcases decode_info_cases env info p header_trace with ⟨-, e'⟩ | ⟨-, -, e'⟩ |
        ⟨-, -, s, hr, e'⟩ | ⟨-, -, s, hr, e'⟩
      · rw [e, e'] at hmem; exact absurd hmem hdr1
      · rw [e, e'] at hmem; exact absurd hmem (early _ _ _ _ _ hdr1 hdr2).1
      · rw [hr] at hshape
        change s.trace = _ at hshape
        rw [e, e', exit_label_trace, hshape]
        exact ⟨rfl, malloc_arg env.abi env.sizeof_GGLSurface info.width info.height,
          by simp [header_trace]⟩
      · rw [hr] at hshape
        change s.trace = _ at hshape
        rw [e, e', exit_label_trace, hshape] at hmem
        simp only [List.mem_append, List.mem_cons, List.mem_singleton] at hmem
        exfalso
        rcases hmem with (hmem | hmem) | hmem | hmem
        · exact hfree (by simpa only [List.mem_append, List.mem_cons] using hmem)
        · exact absurd hmem (by decide)
        · exact absurd hmem (by simp)
        · revert hmem; simp
  · intro hres
    rcases res_create_surface_cases env p with ⟨-, e⟩ | ⟨_, -, -, e⟩ | ⟨_, -, -, -, e⟩ |
      ⟨_, -, -, -, e⟩ | ⟨_, -, -, -, -, e⟩ | ⟨_, -, -, -, -, -, e⟩ | ⟨info, hp, e⟩
    · rw [e]; exact early _ _ _ _ _ (by decide) (by simp)
    · rw [e]; exact early _ _ _ _ _ (by decide) (by simp)
    · rw [e]; exact early _ _ _ _ _ (by decide) (by simp)
    · rw [e]; exact early _ _ _ _ _ (by decide) (by simp)
    · rw [e]; exact early _ _ _ _ _ (by decide) (by simp)
    · rw [e]; exact early _ _ _ _ _ hdr1 hdr2
    · rcases decode_info_cases env info p header_trace with ⟨-, e'⟩ | ⟨-, -, e'⟩ |
        ⟨-, -, s, hr, e'⟩ | ⟨-, -, s, hr, e'⟩
      · rw [e, e']; exact ⟨hdr1, hdr2⟩
      · rw [e, e']; exact early _ _ _ _ _ hdr1 hdr2
      · rw [e, e', exit_label_result] at hres; exact absurd hres (by decide)
      · rw [e, e', exit_label_result] at hres; exact absurd hres (by decide)
  · intro hres hmem
    obtain ⟨info, s, hp, -, -, hr, e⟩ := success_inv env p hres
    obtain ⟨tl, ev, hshape, -, -, hfree⟩ := rows_trace_shape env info
    rw [hr] at hshape
    change s.trace = _ at hshape
    rw [e, exit_label_trace, hshape] at hmem
    simp only [List.mem_append, List.mem_cons, List.mem_singleton] at hmem
    rcases hmem with (hmem | hmem) | hmem | hmem
    · exact hfree (by simpa only [List.mem_append, List.mem_cons] using hmem)
    · exact absurd hmem (by decide)
    · exact absurd hmem (by simp)
    · revert hmem; simp

theorem surface_freed_on_row_fault_witness :
    (res_create_surface env_2x2_fault none).result = -6 ∧
    (res_create_surface env_2x2_fault none).trace.count Event.free = 1 ∧
    (res_create_surface env_2x2_fault none).trace.getLast? = some Event.free ∧
    (res_create_surface { env_base with png_read_info := some info_2x2, malloc := fun _ => false }
      none).result = -8 ∧
    Event.free ∉ (res_create_surface env_2x2 none).trace :=
  ⟨((surface_freed_on_row_fault env_2x2_fault none).1 info_2x2 parsesHeader_env_2x2_fault
      (by decide) rfl ⟨1, by decide, rfl⟩).1,
    ((surface_freed_on_row_fault env_2x2_fault none).1 info_2x2 parsesHeader_env_2x2_fault
      (by decide) rfl ⟨1, by decide, rfl⟩).2.1,
    by decide, by decide,
    (surface_freed_on_row_fault env_2x2 none).2.2.2 (by decide)⟩

/-! ## C13 -/

/-- C13 (failing input): the surface decoded from the 1x1 4-channel image was
allocated by one `malloc`; `res_free_surface` on a non-null handle to it sets
the handle to null and calls nothing: its trace is empty, so the block is
never handed to `free` (the call is commented out in line 199). For every
surface the call returns a null handle and an empty trace. -/
theorem res_free_surface_does_not_free :
    (res_create_surface (env_rgba false) none).result = 0 ∧
    (res_create_surface (env_rgba false) none).pSurface.isSome = true ∧
    (res_create_surface (env_rgba false) none).trace.count (Event.malloc 36) = 1 ∧
    Event.free ∉ (res_create_surface (env_rgba false) none).trace ∧
    (res_free_surface true (res_create_surface (env_rgba false) none).pSurface).1.isNone = true ∧
    (res_free_surface true (res_create_surface (env_rgba false) none).pSurface).2 = [] ∧
    Event.free ∉ (res_free_surface true (res_create_surface (env_rgba false) none).pSurface).2 ∧
    ∀ surf : GGLSurface, res_free_surface true (some surf) = (none, []) :=
  ⟨by decide, by decide, by decide, by decide, by decide, by decide, by decide, fun _ => rfl⟩

/-! ## C14 -/

/-- C14: after `res_free_surface` on a handle (a non-null `pSurface`) the
handle is null; when the handle was already null, or when no handle was passed
(`pSurface` itself null), nothing changes; and a second call on the result
changes nothing, so the function is idempotent. -/
theorem res_free_surface_nulls_handle (nonnull : Bool) (h : Option GGLSurface) :
    (nonnull = true → (res_free_surface nonnull h).1 = none) ∧
    (h = none → (res_free_surface nonnull h).1 = h) ∧
    (nonnull = false → (res_free_surface nonnull h).1 = h) ∧
    res_free_surface nonnull (res_free_surface nonnull h).1
      = ((res_free_surface nonnull h).1, []) ∧
    (res_free_surface nonnull (res_free_surface nonnull h).1).1 = (res_free_surface nonnull h).1 := by
  cases nonnull <;> cases h <;> simp [res_free_surface]

theorem res_free_surface_nulls_handle_witness :
    (res_free_surface true (res_create_surface (env_rgba false) none).pSurface).1 = none ∧
    (res_free_surface true none).1 = none ∧
    (res_free_surface false (res_create_surface (env_rgba false) none).pSurface).1
      = (res_create_surface (env_rgba false) none).pSurface :=
  ⟨(res_free_surface_nulls_handle true _).1 rfl,
    (res_free_surface_nulls_handle true none).2.1 rfl,
    (res_free_surface_nulls_handle false _).2.2.1 rfl⟩

/-! ## C15 -/

/-- C15: for a supported header that declares width 0 or height 0, when
`malloc` succeeds and libpng raises no error, `res_create_surface` returns 0
with `pixelSize` 0 and no byte reserved behind the header, and its trace has
no read or write of pixel memory: with width 0 the counter of the inner loop
starts at `(int)(width - 1) = -1`, so the loop body never runs, and with
height 0 no row is decoded and pixel memory is the fresh block untouched. -/
theorem zero_sized_image (env : Env) (info : PngInfo) (p : Option GGLSurface)
    (hhdr : ParsesHeader env info) (hs : supported info = true)
    (hmalloc :
      env.malloc (malloc_arg env.abi env.sizeof_GGLSurface info.width info.height) = true)
    (hrows : ∀ y : Nat, y < info.height → env.png_read_row y ≠ none)
    (hz : info.width = 0 ∨ info.height = 0) :
    (res_create_surface env p).result = 0 ∧
    pixelSize_of env.abi info.width info.height = 0 ∧
    (res_create_surface env p).reserved env.sizeof_GGLSurface = some 0 ∧
    (∀ e ∈ (res_create_surface env p).trace, ¬ IsAccess e) ∧
    toInt (env.abi.pred 0) = -1 ∧
    (∀ (body : Int → St → St) (s : St), for_x_from_width env.abi 0 body s = s) ∧
    (info.height = 0 →
      (∀ y : Nat, Event.png_read_row y ∉ (res_create_surface env p).trace) ∧
      ∃ surf : GGLSurface, (res_create_surface env p).pSurface = some surf ∧
        surf.data = env.heap) := by
  have hpix : pixelSize_of env.abi info.width info.height = 0 := by
    unfold pixelSize_of stride_of Abi.size_t
    rcases hz with h | h <;> simp [h]
  have hflag : (read_rows env info.channels info.width (stride_of env.abi info.width)
      info.height 0 (rows_start env info header_trace)).1 = true :=
    (read_rows_flag env _ _ _ _ 0 _).mpr (fun y _ h2 => hrows y (by omega))
  obtain ⟨ev, hev, hall, hnil⟩ := read_rows_zero env info.channels info.width
    (stride_of env.abi info.width) info.height hz 0 (rows_start env info header_trace)
  rcases hr : read_rows env info.channels info.width (stride_of env.abi info.width)
      info.height 0 (rows_start env info header_trace) with ⟨b, s'⟩
  rw [hr] at hflag hev hnil
  change b = true at hflag
  change s'.trace = _ at hev
  subst hflag
  have e := decode_info_success env info p header_trace s' hs hmalloc hr
  rw [← res_create_surface_of_parsesHeader hhdr] at e
  have hmarg : malloc_arg env.abi env.sizeof_GGLSurface info.width info.height
      - env.sizeof_GGLSurface = 0 := by
    unfold malloc_arg
    rw [hpix, Nat.add_zero]
    exact Nat.sub_eq_zero_of_le (Nat.mod_le _ _)
  refine ⟨by rw [e]; rfl, hpix, ?_, ?_, x_init_zero env.abi,
    fun body s => for_x_from_width_zero env.abi body s, ?_⟩
  · rw [e]
    show some (malloc_arg env.abi env.sizeof_GGLSurface info.width info.height
      - env.sizeof_GGLSurface) = some 0
    rw [hmarg]
  · intro x hx hacc
    rcases success_trace_mem env info p s' ev e hev x hx with hmem | hno
    · obtain ⟨y', hy'⟩ := hall x hmem
      subst hy'
      exact hacc
    · exact hno (rowEvent_of_isAccess hacc)
  · intro hh
    obtain ⟨hev0, hmem0⟩ := hnil hh
    subst hev0
    refine ⟨fun y hmem => ?_, surface_of env info s'.mem, by rw [e]; rfl, ?_⟩
    · rcases success_trace_mem env info p s' [] e hev _ hmem with h | h
      · exact absurd h (List.not_mem_nil _)
      · exact h trivial
    · show s'.mem = env.heap
      rw [hmem0]
      rfl

theorem zero_sized_image_witness :
    (res_create_surface env_w0 none).result = 0 ∧
    (res_create_surface env_w0 none).reserved env_w0.sizeof_GGLSurface = some 0 ∧
    (res_create_surface env_w0 none).trace =
      [Event.fopen, Event.png_create_read_struct, Event.png_create_info_struct,
       Event.malloc 32, Event.png_read_row 0, Event.png_read_row 1, Event.assign_pSurface,
       Event.png_destroy_read_struct true true, Event.fclose] ∧
    (res_create_surface env_h0 none).result = 0 ∧
    (res_create_surface env_h0 none).trace =
      [Event.fopen, Event.png_create_read_struct, Event.png_create_info_struct,
       Event.malloc 32, Event.assign_pSurface, Event.png_destroy_read_struct true true,
       Event.fclose] ∧
    ∀ e ∈ (res_create_surface env_w0 none).trace, ¬ IsAccess e :=
  ⟨(zero_sized_image env_w0 info_w0 none parsesHeader_env_w0 (by decide) rfl
      (fun _ _ => Option.some_ne_none _) (Or.inl rfl)).1,
    (zero_sized_image env_w0 info_w0 none parsesHeader_env_w0 (by decide) rfl
      (fun _ _ => Option.some_ne_none _) (Or.inl rfl)).2.2.1,
    by decide, by decide, by decide,
    (zero_sized_image env_w0 info_w0 none parsesHeader_env_w0 (by decide) rfl
      (fun _ _ => Option.some_ne_none _) (Or.inl rfl)).2.2.2.1⟩

/-! ## C16 -/

/-- C16 (counterexample): on a 32-bit build, a 3-channel image of width 1
(so `4 * width` is in `int` range) and height `2^30` decodes with result 0
while `pixelSize` wraps to 0: no byte is reserved behind the header, yet the
first row is written at offsets 0 .. 3. -/
theorem access_outside_block_on_ilp32 :
    4 * info_tall.width ≤ 2147483647 ∧
    (res_create_surface env_tall none).result = 0 ∧
    pixelSize_of env_tall.abi info_tall.width info_tall.height = 0 ∧
    (res_create_surface env_tall none).reserved env_tall.sizeof_GGLSurface = some 0 ∧
    Event.store 3 ∈ (res_create_surface env_tall none).trace ∧
    ¬ AccessIn 0 0 (Event.store 3) := by
  have hflag : (read_rows env_tall info_tall.channels info_tall.width
      (stride_of env_tall.abi info_tall.width) info_tall.height 0
      (rows_start env_tall info_tall header_trace)).1 = true :=
    (read_rows_flag env_tall _ _ _ _ 0 _).mpr (fun _ _ _ => Option.some_ne_none _)
  rcases hr : read_rows env_tall info_tall.channels info_tall.width
      (stride_of env_tall.abi info_tall.width) info_tall.height 0
      (rows_start env_tall info_tall header_trace) with ⟨b, s'⟩
  rw [hr] at hflag
  change b = true at hflag
  subst hflag
  have e := decode_info_success env_tall info_tall none header_trace s' (by decide) rfl hr
  rw [← res_create_surface_of_parsesHeader parsesHeader_env_tall] at e
  obtain ⟨s1, hs1⟩ : ∃ s1 : St, s1 =
      normalise_row env_tall.abi env_tall.PIXELS_BGRA info_tall.channels info_tall.width
        ((env_tall.abi.size_t (0 * stride_of env_tall.abi info_tall.width) : Nat) : Int)
        { mem := storeRow (rows_start env_tall info_tall header_trace).mem
            ((env_tall.abi.size_t (0 * stride_of env_tall.abi info_tall.width) : Nat) : Int)
            [1, 2, 3],
          trace := (rows_start env_tall info_tall header_trace).trace
            ++ [Event.png_read_row 0] } := ⟨_, rfl⟩
  have hstore : Event.store 3 ∈ s1.trace := by
    rw [hs1]; decide
  have hstep := read_rows_succ env_tall info_tall.channels info_tall.width
    (stride_of env_tall.abi info_tall.width) 1073741823 0
    (rows_start env_tall info_tall header_trace) [1, 2, 3] rfl
  rw [← hs1] at hstep
  have hrest : read_rows env_tall info_tall.channels info_tall.width
      (stride_of env_tall.abi info_tall.width) 1073741823 1 s1 = (true, s') :=
    hstep.symm.trans hr
  obtain ⟨ev, hev, -, -⟩ := read_rows_rowEvents env_tall info_tall.channels info_tall.width
    (stride_of env_tall.abi info_tall.width) 1073741823 1 s1
  rw [hrest] at hev
  change s'.trace = _ at hev
  have hres : (res_create_surface env_tall none).reserved env_tall.sizeof_GGLSurface
      = some (malloc_arg env_tall.abi env_tall.sizeof_GGLSurface info_tall.width
          info_tall.height - env_tall.sizeof_GGLSurface) := by
    rw [e]; rfl
  refine ⟨by decide, by rw [e]; rfl, by decide, by rw [hres]; decide, ?_,
    fun h => absurd h.2 (by decide)⟩
  rw [e, exit_label_trace, hev]
  exact List.mem_append_left _ (List.mem_append_left _ (List.mem_append_left _ hstore))

/-- C16 (amended): for a header with `4 * width` in `int` range, on both
builds: the counter of the inner loops starts at `width - 1` and the products
`x * 3`, `x * 4` and the sums built on them are exact for every `x < width`;
each inner loop visits exactly the `width` values `x = width - 1, .., 0`, the
expansion reading at `3x .. 3x+2` and writing at `4x .. 4x+3` of the row, the
exchange reading and writing at `4x` and `4x + 2`, all inside the row's
`4 * width` bytes; every access of a run of `res_create_surface` is at an
offset in `[0, 4 * width * height)`; and when
`sizeof(GGLSurface) + 4 * width * height` is below `2 ^ bits` for the `size_t`
of the build, that range is the block reserved behind the header. -/
theorem loop_accesses_in_bounds (env : Env) (p : Option GGLSurface) (info : PngInfo)
    (hinfo : env.png_read_info = some info) (hw : 4 * info.width ≤ 2147483647) :
    toInt (env.abi.pred info.width) = (info.width : Int) - 1 ∧
    (∀ x : Nat, x < info.width →
      wrapInt ((x : Int) * 3) = 3 * x ∧ wrapInt (3 * (x : Int) + 1) = 3 * x + 1 ∧
      wrapInt (3 * (x : Int) + 2) = 3 * x + 2 ∧ wrapInt ((x : Int) * 4) = 4 * x ∧
      wrapInt (4 * (x : Int) + 1) = 4 * x + 1 ∧ wrapInt (4 * (x : Int) + 2) = 4 * x + 2 ∧
      wrapInt (4 * (x : Int) + 3) = 4 * x + 3) ∧
    (∀ (body : Int → St → St) (s : St),
      for_x_from_width env.abi info.width body s = for_x body info.width s) ∧
    (∀ (pRow : Int) (s : St),
      (normalise_row env.abi env.PIXELS_BGRA 3 info.width pRow s).trace
        = s.trace ++ loop_events (expand_events env.PIXELS_BGRA pRow) info.width ∧
      (normalise_row env.abi true 4 info.width pRow s).trace
        = s.trace ++ loop_events (swap_events pRow) info.width ∧
      (loop_events (expand_events env.PIXELS_BGRA pRow) info.width).length = 7 * info.width ∧
      (loop_events (swap_events pRow) info.width).length = 4 * info.width ∧
      (∀ e ∈ loop_events (expand_events env.PIXELS_BGRA pRow) info.width,
        AccessIn pRow (pRow + 4 * (info.width : Int)) e) ∧
      (∀ e ∈ loop_events (swap_events pRow) info.width,
        AccessIn pRow (pRow + 4 * (info.width : Int)) e)) ∧
    (∀ e ∈ (res_create_surface env p).trace,
      AccessIn 0 ((4 * info.width * info.height : Nat) : Int) e) ∧
    (env.sizeof_GGLSurface + 4 * info.width * info.height < 2 ^ env.abi.bits →
      malloc_arg env.abi env.sizeof_GGLSurface info.width info.height - env.sizeof_GGLSurface
        = 4 * info.width * info.height ∧
      ∀ e ∈ (res_create_surface env p).trace,
        AccessIn 0
          ((malloc_arg env.abi env.sizeof_GGLSurface info.width info.height
            - env.sizeof_GGLSurface : Nat) : Int) e) := by
  refine ⟨x_init_exact env.abi info.width hw, fun x hx => ?_,
    fun body s => for_x_from_width_eq env.abi info.width (by omega) body s,
    fun pRow s => ⟨normalise_row_trace_three _ _ _ _ _ hw, normalise_row_trace_four _ _ _ _ hw,
      ?_, ?_, ?_, ?_⟩,
    accessIn_run env p info hinfo hw, fun hsz => ?_⟩
  · refine ⟨?_, ?_, ?_, ?_, ?_, ?_, ?_⟩ <;> rw [wrapInt_id] <;> omega
  · exact length_loop_events _ 7 _ (fun x _ => by cases env.PIXELS_BGRA <;> rfl)
  · exact length_loop_events _ 4 _ (fun x _ => rfl)
  · intro e he
    obtain ⟨x, hx, hm⟩ := mem_loop_events he
    exact accessIn_expand_events _ _ _ x hx e hm
  · intro e he
    obtain ⟨x, hx, hm⟩ := mem_loop_events he
    exact accessIn_swap_events _ _ x hx e hm
  · have hm : malloc_arg env.abi env.sizeof_GGLSurface info.width info.height
        - env.sizeof_GGLSurface = 4 * info.width * info.height := by
      rw [malloc_arg_exact _ _ _ _ hsz, Nat.add_sub_cancel_left]
    refine ⟨hm, ?_⟩
    rw [hm]
    exact accessIn_run env p info hinfo hw

theorem loop_accesses_in_bounds_witness :
    (res_create_surface env_2x2 none).trace.length = 37 ∧
    (∀ e ∈ (res_create_surface env_2x2 none).trace,
      AccessIn 0 ((4 * info_2x2.width * info_2x2.height : Nat) : Int) e) ∧
    (normalise_row env_2x2.abi env_2x2.PIXELS_BGRA 3 info_2x2.width 8 row2).trace
      = row2.trace ++ loop_events (expand_events env_2x2.PIXELS_BGRA 8) info_2x2.width :=
  ⟨by decide,
    (loop_accesses_in_bounds env_2x2 none info_2x2 rfl (by decide)).2.2.2.2.1,
    ((loop_accesses_in_bounds env_2x2 none info_2x2 rfl (by decide)).2.2.2.1 8 row2).1⟩

end Minui
